import Mathlib

/-!
Verification of the hermes RDMA cluster tool (llm-d-incubation/hermes)
against its natural-language specification.

Shallow embedding conventions:
* Rust `BTreeMap<String,String>` / `HashMap<String,String>` become association
  lists `List (String × String)` (`LMap`); only lookup / iteration facts that
  do not depend on hash order are used in theorems, and where Rust iterates a
  `HashMap` in unspecified order the model fixes first-insertion order.
* Machine integers become `Nat` (u32/usize) and `Int` with explicit 128-bit
  bounds (i128); checked arithmetic is explicit.
* A Rust panic is modelled by `Option.none` on the function's result.
* Strings are modelled as ASCII, so Rust byte indexing agrees with character
  indexing.
-/

namespace Hermes

/-- Association-list stand-in for the string maps on Kubernetes objects. -/
abbrev LMap := List (String × String)

/-- `BTreeMap::get` / `HashMap::get`. -/
def lmapGet (m : LMap) (k : String) : Option String :=
  List.lookup k m

/-- Executable substring test on character lists (Rust `str::contains`). -/
def infixB (p : List Char) : List Char → Bool
  | [] => p.isEmpty
  | a :: l => p.isPrefixOf (a :: l) || infixB p l

/-- Rust `haystack.contains(needle)` for plain substring needles. -/
def strContainsB (haystack needle : String) : Bool :=
  infixB needle.data haystack.data

/-- A string append is non-empty when its left part is. -/
theorem append_left_ne_empty (a b : String) (h : a.length ≠ 0) : a ++ b ≠ "" := by
  intro hab
  have hlen := congrArg String.length hab
  rw [String.length_append] at hlen
  have hz : ("" : String).length = 0 := rfl
  omega

/-- A string append is non-empty when its right part is. -/
theorem append_right_ne_empty (a b : String) (h : b.length ≠ 0) : a ++ b ≠ "" := by
  intro hab
  have hlen := congrArg String.length hab
  rw [String.length_append] at hlen
  have hz : ("" : String).length = 0 := rfl
  omega

/-- An infix of the left part of an append is an infix of the whole. -/
theorem infix_append_of_infix_left {α : Type} {p l₁ : List α} (l₂ : List α)
    (h : p <:+: l₁) : p <:+: l₁ ++ l₂ := by
  obtain ⟨s, t, hst⟩ := h
  exact ⟨s, t ++ l₂, by rw [← hst]; simp⟩

/-- An infix of the right part of an append is an infix of the whole. -/
theorem infix_append_of_infix_right {α : Type} {p l₂ : List α} (l₁ : List α)
    (h : p <:+: l₂) : p <:+: l₁ ++ l₂ := by
  obtain ⟨s, t, hst⟩ := h
  exact ⟨l₁ ++ s, t, by rw [← hst]; simp⟩

/-! ## Node selector parameter resolution (hermes/src/node_selector.rs) -/

/-- `NodeSelectionParams` from hermes/src/node_selector.rs. -/
structure NodeSelectionParams where
  num_nodes : Option Nat
  gpus_per_node : Option Nat
  total_gpus : Option Nat
  min_gpus_per_node : Option Nat
  ib_only : Bool
  prefer_same_block : Bool

/-- `NodeSelectionParams::resolve`.  Result `none` models the Rust panic that
`total % g` raises when `g = 0` (`u32` remainder by zero); `some (.error m)`
models `bail!(m)`; `some (.ok (n, g?))` the success value. -/
def NodeSelectionParams.resolve (p : NodeSelectionParams) :
    Option (Except String (Nat × Option Nat)) :=
  match p.num_nodes, p.total_gpus, p.gpus_per_node with
  | some n, none, some g => some (.ok (n, some g))
  | none, some total, some g =>
      if g = 0 then none
      else if total % g ≠ 0 then
        some (.error ("total-gpus (" ++ toString total ++
          ") not evenly divisible by gpus-per-node (" ++ toString g ++ ")"))
      else some (.ok (total / g, some g))
  | some n, none, none => some (.ok (n, none))
  | none, some total, none => some (.ok (0, some total))
  | none, none, none => some (.ok (2, none))
  | none, none, some _ =>
      some (.error "--gpus-per-node requires either --num-nodes or --total-gpus")
  | some _, some _, _ =>
      some (.error "Cannot specify both --num-nodes and --total-gpus")

/-- Parameter triple with the remaining fields fixed (resolve reads only the
triple). -/
def mkParams (nn tg gp : Option Nat) : NodeSelectionParams :=
  { num_nodes := nn, total_gpus := tg, gpus_per_node := gp,
    min_gpus_per_node := none, ib_only := false, prefer_same_block := false }

example : (mkParams (some 3) none (some 8)).resolve = some (.ok (3, some 8)) := rfl
example : (mkParams none (some 16) (some 8)).resolve = some (.ok (2, some 8)) := rfl
example : (mkParams none (some 7) (some 0)).resolve = none := rfl

/-! ## Platform model (src/platforms.rs) -/

/-- `PlatformType` from src/models.rs. -/
inductive PlatformType
  | CoreWeave | OpenShift | GKE | GenericKubernetes
deriving DecidableEq, Repr

/-- `TopologyType` from src/models.rs. -/
inductive TopologyType
  | LeafGroup | Zone | Rack | IpRange | Subnet | Hardware | GkeBlock | Custom | Unknown
deriving DecidableEq, Repr

/-- `TopologyDetection` from src/models.rs. -/
structure TopologyDetection where
  topology_type : TopologyType
  detection_method : String
  confidence : String
deriving DecidableEq, Repr

/-- The parts of a `k8s_openapi` `Node` read by the platform detectors:
`metadata.name`, `metadata.labels`, `metadata.annotations`,
`status.capacity` (resource name to quantity string). -/
structure NodeK where
  name : Option String
  labels : Option LMap
  annotations : Option LMap
  capacity : Option LMap
deriving Repr

/-- Debug rendering of a `k8s_openapi` `Quantity` (a newtype over `String`),
as produced by Rust's `format!("{:?}", q)`. -/
def qtyDebug (v : String) : String :=
  "Quantity(\"" ++ v ++ "\")"

/-- `detect_platform_from_labels` (src/platforms.rs): fixed matching order
OpenShift, CoreWeave, GKE, Generic. -/
def detect_platform_from_labels (labels : LMap) : PlatformType :=
  if (lmapGet labels "node.openshift.io/os_id").isSome then .OpenShift
  else if labels.any (fun kv => kv.1.startsWith "ib.coreweave.cloud/") then .CoreWeave
  else if labels.any (fun kv => kv.1.startsWith "cloud.google.com/gke-") then .GKE
  else .GenericKubernetes

/-- `CoreWeavePlatform::detect_rdma_capability` (src/platforms.rs). -/
def coreweaveDetectRdma (node : NodeK) : Bool × Option String × Option String :=
  let labels := node.labels.getD []
  match node.capacity with
  | some cap =>
    if (lmapGet cap "rdma/roce_gdr").isSome then
      let quantity := match lmapGet cap "rdma/roce_gdr" with
        | some q => qtyDebug q
        | none => "unknown"
      if lmapGet labels "ib.coreweave.cloud/speed" = some "0G" then (false, none, none)
      else (true, some "RoCE GPU Direct", some ("rdma/roce_gdr: " ++ quantity))
    else if (lmapGet cap "rdma/ib").isSome then
      let quantity := match lmapGet cap "rdma/ib" with
        | some q => qtyDebug q
        | none => "unknown"
      if lmapGet labels "ib.coreweave.cloud/speed" = some "0G" then (false, none, none)
      else (true, some "InfiniBand", some ("rdma/ib: " ++ quantity))
    else (false, none, none)
  | none => (false, none, none)

/-- `OpenShiftPlatform::detect_rdma_capability` and (identically)
`GenericKubernetesPlatform::detect_rdma_capability` (src/platforms.rs):
resource accounting first, then the `feature.node.kubernetes.io/rdma.capable`
label, which yields `Capable` with `rdma_resource = None`. -/
def openshiftDetectRdma (node : NodeK) : Bool × Option String × Option String :=
  let labels := node.labels.getD []
  let viaCapacity : Option (Bool × Option String × Option String) :=
    match node.capacity with
    | some cap =>
      if (lmapGet cap "rdma/roce_gdr").isSome then
        let quantity := match lmapGet cap "rdma/roce_gdr" with
          | some q => qtyDebug q
          | none => "unknown"
        some (true, some "RoCE GPU Direct", some ("rdma/roce_gdr: " ++ quantity))
      else if (lmapGet cap "rdma/ib").isSome then
        let quantity := match lmapGet cap "rdma/ib" with
          | some q => qtyDebug q
          | none => "unknown"
        some (true, some "InfiniBand", some ("rdma/ib: " ++ quantity))
      else none
    | none => none
  match viaCapacity with
  | some r => r
  | none =>
    if lmapGet labels "feature.node.kubernetes.io/rdma.capable" = some "true" then
      (true, some "Generic RDMA", none)
    else (false, none, none)

/-- `GkePlatform::detect_rdma_capability` (src/platforms.rs). -/
def gkeDetectRdma (node : NodeK) : Bool × Option String × Option String :=
  let labels := node.labels.getD []
  let viaCapacity : Option (Bool × Option String × Option String) :=
    match node.capacity with
    | some cap =>
      if cap.any (fun kv => kv.1.startsWith "networking.gke.io.networks/rdma-") then
        let rdma_count := cap.countP (fun kv =>
          kv.1.startsWith "networking.gke.io.networks/rdma-" && !kv.1.endsWith ".IP")
        some (true, some "GKE RDMA", some (toString rdma_count ++ " RDMA interfaces"))
      else if cap.any (fun kv => kv.1.startsWith "networking.gke.io.networks/gvnic-") then
        let gvnic_count := cap.countP (fun kv =>
          kv.1.startsWith "networking.gke.io.networks/gvnic-" && !kv.1.endsWith ".IP")
        some (true, some "gVNIC (Google Virtual NIC)",
          some (toString gvnic_count ++ " gVNIC interfaces"))
      else none
    | none => none
  match viaCapacity with
  | some r => r
  | none =>
    if lmapGet labels "cloud.google.com/gke-gvnic" = some "true" then
      (true, some "gVNIC (Google Virtual NIC)", some "gVNIC enabled")
    else (false, none, none)

/-- Trait-object dispatch of `detect_rdma_capability` over the platform tag. -/
def detect_rdma_capability (p : PlatformType) (node : NodeK) :
    Bool × Option String × Option String :=
  match p with
  | .CoreWeave => coreweaveDetectRdma node
  | .OpenShift => openshiftDetectRdma node
  | .GKE => gkeDetectRdma node
  | .GenericKubernetes => openshiftDetectRdma node

/-- RDMA fields of the `NodeInfo` built by `ClusterAnalyzer::analyze_node_with_image`
(hermes/src/analyzer.rs): platform classification of the labels, then the
platform's `detect_rdma_capability`; the tuple is stored in the `NodeInfo`
unchanged (`Capable` iff the Bool is true). -/
def analyzeRdma (node : NodeK) : Bool × Option String × Option String :=
  detect_rdma_capability (detect_platform_from_labels (node.labels.getD [])) node

/-- A `some` of a left-anchored append never equals `some ""`. -/
theorem some_append_ne_some_empty_left (a b : String) (h : a.length ≠ 0) :
    some (a ++ b) ≠ some "" :=
  fun hc => append_left_ne_empty a b h (Option.some.inj hc)

/-- A `some` of a right-anchored append never equals `some ""`. -/
theorem some_append_ne_some_empty_right (a b : String) (h : b.length ≠ 0) :
    some (a ++ b) ≠ some "" :=
  fun hc => append_right_ne_empty a b h (Option.some.inj hc)

/-- When `coreweaveDetectRdma` reports capable, the type and resource strings
are present and non-empty. -/
theorem coreweaveDetectRdma_capable (node : NodeK)
    (h : (coreweaveDetectRdma node).1 = true) :
    (coreweaveDetectRdma node).2.1 ≠ none ∧
    (coreweaveDetectRdma node).2.1 ≠ some "" ∧
    (coreweaveDetectRdma node).2.2 ≠ some "" ∧
    (coreweaveDetectRdma node).2.2 ≠ none := by
  unfold coreweaveDetectRdma at h ⊢
  cases hc : node.capacity with
  | none => rw [hc] at h; simp at h
  | some cap =>
    rw [hc] at h
    dsimp only at h ⊢
    split_ifs at h ⊢ <;>
      exact ⟨by simp, by simp,
        some_append_ne_some_empty_left _ _ (by decide), by simp⟩

/-- When `openshiftDetectRdma` reports capable, the type is present and
non-empty, the resource is non-empty when present, and the resource is absent
only on the `rdma.capable` feature-label path. -/
theorem openshiftDetectRdma_capable (node : NodeK)
    (h : (openshiftDetectRdma node).1 = true) :
    (openshiftDetectRdma node).2.1 ≠ none ∧
    (openshiftDetectRdma node).2.1 ≠ some "" ∧
    (openshiftDetectRdma node).2.2 ≠ some "" ∧
    ((openshiftDetectRdma node).2.2 = none →
      lmapGet (node.labels.getD []) "feature.node.kubernetes.io/rdma.capable" =
        some "true") := by
  unfold openshiftDetectRdma at h ⊢
  cases hc : node.capacity with
  | none =>
    rw [hc] at h
    dsimp only at h ⊢
    split_ifs at h ⊢ with hl
    exact ⟨by simp, by simp, by simp, fun _ => hl⟩
  | some cap =>
    rw [hc] at h
    dsimp only at h ⊢
    split_ifs at h ⊢ <;>
      first
      | exact ⟨by simp, by simp,
          some_append_ne_some_empty_left _ _ (by decide), by simp⟩
      | exact ⟨by simp, by simp, by simp, fun _ => by assumption⟩

/-- When `gkeDetectRdma` reports capable, the type and resource strings are
present and non-empty. -/
theorem gkeDetectRdma_capable (node : NodeK)
    (h : (gkeDetectRdma node).1 = true) :
    (gkeDetectRdma node).2.1 ≠ none ∧
    (gkeDetectRdma node).2.1 ≠ some "" ∧
    (gkeDetectRdma node).2.2 ≠ some "" ∧
    (gkeDetectRdma node).2.2 ≠ none := by
  unfold gkeDetectRdma at h ⊢
  cases hc : node.capacity with
  | none =>
    rw [hc] at h
    dsimp only at h ⊢
    split_ifs at h ⊢
    exact ⟨by simp, by simp, by simp, by simp⟩
  | some cap =>
    rw [hc] at h
    dsimp only at h ⊢
    split_ifs at h ⊢ <;>
      first
      | exact ⟨by simp, by simp,
          some_append_ne_some_empty_right _ _ (by decide), by simp⟩
      | exact ⟨by simp, by simp, by simp, by simp⟩

/-- C1 (amended): on every platform, a node detected as RDMA-capable carries a
present, non-empty `rdma_type`; its `rdma_resource` is non-empty whenever
present, and it is absent exactly on the OpenShift/Generic
`feature.node.kubernetes.io/rdma.capable` label path (src/platforms.rs lines
193-201 and 452-460), where the code stores `None`. -/
theorem rdma_capable_field_invariant (node : NodeK)
    (h : (analyzeRdma node).1 = true) :
    (analyzeRdma node).2.1 ≠ none ∧
    (analyzeRdma node).2.1 ≠ some "" ∧
    (analyzeRdma node).2.2 ≠ some "" ∧
    ((analyzeRdma node).2.2 = none →
      lmapGet (node.labels.getD []) "feature.node.kubernetes.io/rdma.capable" =
        some "true") := by
  unfold analyzeRdma at h ⊢
  cases hp : detect_platform_from_labels (node.labels.getD []) <;>
    rw [hp] at h <;>
    simp only [detect_rdma_capability] at h ⊢
  case CoreWeave =>
    obtain ⟨h1, h2, h3, h4⟩ := coreweaveDetectRdma_capable node h
    exact ⟨h1, h2, h3, fun hn => absurd hn h4⟩
  case OpenShift => exact openshiftDetectRdma_capable node h
  case GKE =>
    obtain ⟨h1, h2, h3, h4⟩ := gkeDetectRdma_capable node h
    exact ⟨h1, h2, h3, fun hn => absurd hn h4⟩
  case GenericKubernetes => exact openshiftDetectRdma_capable node h

/-- An OpenShift node whose only RDMA signal is the
`feature.node.kubernetes.io/rdma.capable=true` label. -/
def nodeFeatureLabelOnly : NodeK :=
  { name := some "os-node",
    labels := some [("node.openshift.io/os_id", "rhcos"),
                    ("feature.node.kubernetes.io/rdma.capable", "true")],
    annotations := some [],
    capacity := some [] }

/-- C1 counterexample: on this OpenShift node the analyzer reports
`rdma_capability = Capable` while `rdma_resource = None`, so the claim
"Capable implies rdma_resource present and non-empty" is false on the code. -/
theorem rdma_capable_resource_none_cex :
    analyzeRdma nodeFeatureLabelOnly = (true, some "Generic RDMA", none) := rfl

/-- C1 witness: the amended invariant applied to the concrete node above. -/
theorem rdma_capable_field_invariant_witness :
    (analyzeRdma nodeFeatureLabelOnly).2.1 ≠ none ∧
    (analyzeRdma nodeFeatureLabelOnly).2.1 ≠ some "" ∧
    (analyzeRdma nodeFeatureLabelOnly).2.2 ≠ some "" ∧
    ((analyzeRdma nodeFeatureLabelOnly).2.2 = none →
      lmapGet (nodeFeatureLabelOnly.labels.getD [])
        "feature.node.kubernetes.io/rdma.capable" = some "true") :=
  rdma_capable_field_invariant nodeFeatureLabelOnly rfl

/-- C2 (amended): `resolve` follows the spec table row by row, with the one
restriction the code forces: in the `(None, Some T, Some G)` row the
divisibility check `total % g` is a `u32` remainder, which panics when
`G = 0` instead of returning the error the table promises (`resolve = none`
in the model); all other rows are unconditional. -/
theorem resolve_matches_spec_table (p : NodeSelectionParams) (N T G : Nat) :
    (p.num_nodes = some N → p.total_gpus = none → p.gpus_per_node = some G →
      p.resolve = some (.ok (N, some G))) ∧
    (p.num_nodes = none → p.total_gpus = some T → p.gpus_per_node = some G →
      0 < G →
      (T % G = 0 → p.resolve = some (.ok (T / G, some G))) ∧
      (T % G ≠ 0 → ∃ m, p.resolve = some (.error m))) ∧
    (p.num_nodes = some N → p.total_gpus = none → p.gpus_per_node = none →
      p.resolve = some (.ok (N, none))) ∧
    (p.num_nodes = none → p.total_gpus = some T → p.gpus_per_node = none →
      p.resolve = some (.ok (0, some T))) ∧
    (p.num_nodes = none → p.total_gpus = none → p.gpus_per_node = none →
      p.resolve = some (.ok (2, none))) ∧
    (p.num_nodes = none → p.total_gpus = none → p.gpus_per_node = some G →
      ∃ m, p.resolve = some (.error m)) ∧
    (p.num_nodes = some N → p.total_gpus = some T →
      ∃ m, p.resolve = some (.error m)) := by
  refine ⟨?_, ?_, ?_, ?_, ?_, ?_, ?_⟩
  · intro h1 h2 h3
    simp [NodeSelectionParams.resolve, h1, h2, h3]
  · intro h1 h2 h3 hG
    constructor
    · intro hmod
      simp [NodeSelectionParams.resolve, h1, h2, h3, Nat.pos_iff_ne_zero.mp hG, hmod]
    · intro hmod
      have hres : p.resolve = some (.error ("total-gpus (" ++ toString T ++
          ") not evenly divisible by gpus-per-node (" ++ toString G ++ ")")) := by
        simp [NodeSelectionParams.resolve, h1, h2, h3, Nat.pos_iff_ne_zero.mp hG, hmod]
      exact ⟨_, hres⟩
  · intro h1 h2 h3
    simp [NodeSelectionParams.resolve, h1, h2, h3]
  · intro h1 h2 h3
    simp [NodeSelectionParams.resolve, h1, h2, h3]
  · intro h1 h2 h3
    simp [NodeSelectionParams.resolve, h1, h2, h3]
  · intro h1 h2 h3
    have hres : p.resolve =
        some (.error "--gpus-per-node requires either --num-nodes or --total-gpus") := by
      simp [NodeSelectionParams.resolve, h1, h2, h3]
    exact ⟨_, hres⟩
  · intro h1 h2
    have hres : p.resolve =
        some (.error "Cannot specify both --num-nodes and --total-gpus") := by
      cases h3 : p.gpus_per_node <;>
        simp [NodeSelectionParams.resolve, h1, h2, h3]
    exact ⟨_, hres⟩

/-- C2 counterexample: with `total_gpus = 7` and `gpus_per_node = 0`, the
claim's table demands an error ("0 does not evenly divide 7"), but
`resolve` evaluates `7 % 0` and panics (modelled as `none`), so `resolve`
is not total as claimed. -/
theorem resolve_mod_zero_panics_cex :
    (mkParams none (some 7) (some 0)).resolve = none := rfl

/-- C2 witness: the table rows applied at a concrete parameter set. -/
theorem resolve_matches_spec_table_witness :
    (mkParams none (some 16) (some 8)).resolve = some (.ok (2, some 8)) :=
  ((resolve_matches_spec_table (mkParams none (some 16) (some 8)) 0 16 8).2.1
    rfl rfl rfl (by decide)).1 (by decide)

/-! ## GKE topology block detection (src/platforms.rs, C3) -/

/-- Rust `&s[..8]`: byte-slice of the first 8 bytes, which panics when the
string is shorter than 8 bytes (`none` in the model; strings are modelled as
ASCII, so bytes coincide with characters). -/
def take8Bytes (s : String) : Option String :=
  if 8 ≤ s.length then some (s.take 8) else none

/-- `GkePlatform::detect_topology_block` (src/platforms.rs lines 321-386).
The third branch of the source derives a fabric domain by JSON-parsing the
`networking.gke.io/networks` annotation (`extract_gke_fabric_domain`); the
model receives that already-extracted value as the `fabric_domain` argument
(it is `none` whenever the annotation is missing or malformed).  The outer
`Option` models the panic of the byte slices `&topology_block[..8]` and
`&topology_subblock[..8]`. -/
def gkeDetectTopologyBlock (labels : LMap) (fabric_domain : Option String) :
    Option (Option String × Option TopologyDetection) :=
  match lmapGet labels "cloud.google.com/gce-topology-block" with
  | some topology_block =>
    match take8Bytes topology_block with
    | none => none
    | some p => some (some ("block-" ++ p),
        some ⟨.GkeBlock, "GKE cloud.google.com/gce-topology-block label", "High"⟩)
  | none =>
  match lmapGet labels "cloud.google.com/gce-topology-subblock" with
  | some topology_subblock =>
    match take8Bytes topology_subblock with
    | none => none
    | some p => some (some ("subblock-" ++ p),
        some ⟨.GkeBlock, "GKE cloud.google.com/gce-topology-subblock label", "Medium"⟩)
  | none =>
  match fabric_domain with
  | some fd => some (some fd, some ⟨.Hardware, "GKE RDMA fabric domain analysis", "High"⟩)
  | none =>
  match lmapGet labels "topology.gke.io/zone" <|>
        lmapGet labels "topology.kubernetes.io/zone",
        lmapGet labels "cloud.google.com/gke-nodepool" with
  | some zone, some nodepool =>
    some (some (zone ++ "-" ++ nodepool), some ⟨.Zone, "GKE zone+nodepool topology", "Medium"⟩)
  | _, _ =>
  match lmapGet labels "topology.gke.io/zone" with
  | some zone =>
    some (some ("gke-zone-" ++ zone), some ⟨.Zone, "GKE topology.gke.io/zone label", "Medium"⟩)
  | none => some (none, none)

/-- C3: the spec says the `gce-topology-block` label is "truncated to 8
chars" and that "platform detectors never fail", but the code slices
`&topology_block[..8]`, which panics for any label value shorter than
8 bytes (first conjunct, value "abc"); for values of length at least 8 the
detector does return the truncated block (second conjunct). -/
theorem gke_topology_block_short_label_panics :
    gkeDetectTopologyBlock [("cloud.google.com/gce-topology-block", "abc")] none = none ∧
    gkeDetectTopologyBlock [("cloud.google.com/gce-topology-block", "abcdef12xyz")] none =
      some (some "block-abcdef12",
        some ⟨.GkeBlock, "GKE cloud.google.com/gce-topology-block label", "High"⟩) :=
  ⟨rfl, rfl⟩

/-! ## Topology rule evaluator (C4)

The hermes crate's `topology_rule.rs` (the module `hermes/src/analyzer.rs`
lines 83-113 calls) is not present in the source tree; only its caller and
the CLI help (`regex:PATTERN - Regex with optional capture group`) are.  The
evaluator itself is therefore modelled from the spec, section 4.3. -/

/-- Leftmost match of the regex `c(\d+)` (a literal character followed by one
greedy digit-class capture group) against a character list.  Returns
`(whole match, capture group 1)`.  This is the fragment of the `regex` crate
semantics the claim's concrete rule `regex:r(\d+)` needs: scan left to right
for the first position where the literal matches and at least one digit
follows; the group takes the maximal digit run. -/
def findLitDigits (c : Char) : List Char → Option (List Char × List Char)
  | [] => none
  | x :: xs =>
    let ds := xs.takeWhile Char.isDigit
    if x = c ∧ ds ≠ [] then some (c :: ds, ds)
    else findLitDigits c xs

/-- Patterns of the shape `c(\d+)` supported by the regex model. -/
def parseLitDigitsPattern (pat : List Char) : Option Char :=
  match pat with
  | [c, '(', '\\', 'd', '+', ')'] => some c
  | _ => none

/-- Strip a literal prefix from a character list (Rust `str::strip_prefix`);
`none` when the prefix does not match. -/
def stripPrefixList : List Char → List Char → Option (List Char)
  | [], l => some l
  | _ :: _, [] => none
  | p :: ps, a :: l => if a = p then stripPrefixList ps l else none

/-- Modelled from the spec: `evaluate_topology_rule` of the missing
hermes/src/topology_rule.rs, restricted to `regex:`-prefixed rules whose
pattern has the supported shape `c(\d+)`.  Per spec section 4.3: evaluate the
pattern against `node_name`; return capture group 1 if present, else the full
match; an empty result becomes `None`.  A node without a name is an error
(as in the src/src/topology_rule.rs evaluator); an unsupported pattern is
outside the model and reported as an error. -/
def evaluate_topology_rule (node_name : Option String) (rule : String) :
    Except String (Option String) :=
  match node_name with
  | none => .error "Node has no name"
  | some name =>
    match stripPrefixList "regex:".data rule.data with
    | some pat =>
      match parseLitDigitsPattern pat with
      | none => .error "unsupported pattern shape in model"
      | some c =>
        match findLitDigits c name.data with
        | none => .ok none          -- no match: empty string result, becomes None
        | some (_, group1) =>
          -- the pattern has a capture group, so group 1 is returned;
          -- `\d+` never matches the empty string
          if group1.isEmpty then .ok none else .ok (some (String.mk group1))
    | none => .error "CEL evaluation not modelled"

/-- `create_custom_topology_detection` (src/topology_rule.rs lines 90-96). -/
def create_custom_topology_detection (rule : String) : TopologyDetection :=
  ⟨.Custom, "Custom CEL rule: " ++ rule, "High"⟩

/-- The topology-rule arm of `ClusterAnalyzer::analyze_node_with_image`
(hermes/src/analyzer.rs lines 83-99): the triple is
`(topology_block, topology_detection, topology_rule_error)`. -/
def analyzeTopologyWithRule (node_name : Option String) (rule : String) :
    Option String × Option TopologyDetection × Option String :=
  match evaluate_topology_rule node_name rule with
  | .ok (some result) => (some result, some (create_custom_topology_detection rule), none)
  | .ok none => (none, some (create_custom_topology_detection rule), none)
  | .error e => (none, none, some e)

/-- C4: for the three spec nodes and the rule `regex:r(\d+)`, the analyzer
derives topology blocks "43", "52" and "9", marks the detection `Custom`
(high confidence), and records no `topology_rule_error`; a name the pattern
does not match yields block `None`, still `Custom`, still no error. -/
theorem topology_rule_regex_scenario :
    analyzeTopologyWithRule (some "pokprod-b93r43s0") "regex:r(\\d+)" =
      (some "43", some ⟨.Custom, "Custom CEL rule: regex:r(\\d+)", "High"⟩, none) ∧
    analyzeTopologyWithRule (some "pokprod-b93r52s0") "regex:r(\\d+)" =
      (some "52", some ⟨.Custom, "Custom CEL rule: regex:r(\\d+)", "High"⟩, none) ∧
    analyzeTopologyWithRule (some "pokprod-b93r9s0") "regex:r(\\d+)" =
      (some "9", some ⟨.Custom, "Custom CEL rule: regex:r(\\d+)", "High"⟩, none) ∧
    analyzeTopologyWithRule (some "no-digits-here") "regex:q(\\d+)" =
      (none, some ⟨.Custom, "Custom CEL rule: regex:q(\\d+)", "High"⟩, none) := by
  refine ⟨?_, ?_, ?_, ?_⟩ <;> decide

/-! ## Self-test orchestrator, SR-IOV discovery phase (src/self_test.rs, C7) -/

/-- The fields of the `SriovNetwork` custom resource the orchestrator reads:
`metadata.name`, `spec.networkNamespace`, `spec.resourceName`. -/
structure SriovNetwork where
  name : Option String
  network_namespace : Option String
  resource_name : String
deriving DecidableEq

/-- Rust `r.split(':').next().unwrap_or("")`: everything before the first
colon (the whole string when there is none). -/
def firstSegment (r : String) : String :=
  String.mk (r.data.takeWhile (fun c => c != ':'))

/-- `SelfTestOrchestrator::detect_sriov_networks` (src/self_test.rs lines
438-476), given the networks listed from the operator namespace: keep those
whose `networkNamespace` equals the target namespace (absent means
not matching). -/
def detect_sriov_networks (cluster_networks : List SriovNetwork)
    (target_namespace : String) : List SriovNetwork :=
  cluster_networks.filter fun net =>
    match net.network_namespace with
    | some ns => ns == target_namespace
    | none => false

/-- `SelfTestOrchestrator::select_sriov_network` (src/self_test.rs lines
479-515). -/
def select_sriov_network (networks : List SriovNetwork) : Option String :=
  if networks.isEmpty then none
  else
    match networks.find? (fun net =>
        match net.name with
        | some nm => strContainsB nm.toLower "rdma" || strContainsB nm.toLower "roce"
        | none => false) with
    | some net => net.name
    | none =>
      match networks.find? (fun net =>
          strContainsB net.resource_name.toLower "rdma" ||
          strContainsB net.resource_name.toLower "roce" ||
          strContainsB net.resource_name.toLower "mlnx") with
      | some net => net.name
      | none => networks.head?.bind (·.name)

/-- First fixed segment of the not-found message (src/self_test.rs line 726). -/
def msgNoSriovA : String := "No SR-IOV networks found for namespace '"

/-- Middle fixed segment of the not-found message (lines 726-730). -/
def msgNoSriovB : String :=
  "'. RoCE RDMA requires SR-IOV network configuration. Please either:\n  " ++
  "1. Configure an SR-IOV network in the openshift-sriov-network-operator namespace " ++
  "with networkNamespace: '"

/-- Last fixed segment of the not-found message (lines 730-731). -/
def msgNoSriovC : String :=
  "', or\n  2. Specify an existing network with --sriov-network <network-name>"

/-- The error message of src/self_test.rs lines 725-734 (the `format!`
string with its line-continuation backslashes folded). -/
def msgNoSriovFound (ns : String) : String :=
  msgNoSriovA ++ ns ++ msgNoSriovB ++ ns ++ msgNoSriovC

/-- The error message of src/self_test.rs lines 716-722. -/
def msgNoSuitableSriov (ns : String) (found : Nat) : String :=
  "No suitable SR-IOV network found for namespace '" ++ ns ++
  "'. Found " ++ toString found ++ " network(s) but none matched RDMA criteria. " ++
  "Please specify --sriov-network manually or configure an SR-IOV network for this namespace."

/-- The SR-IOV phase of `SelfTestOrchestrator::run` (src/self_test.rs lines
691-744), between node-pair selection and workload deployment.  Inputs: the
configured `--sriov-network` override, the target namespace, the selected
pair's `node1.rdma_resource`, and the SR-IOV networks listed from the
operator namespace.  `Except.ok d` means `run` proceeds to
"Deploying test workload" / `execute_test` (the first point at which any
cluster resource is created) with auto-detected network `d`;
`Except.error m` means `run` returns `Err(m)` before any resource creation. -/
def runSriovPhase (config_sriov_network : Option String) (namespace_ : String)
    (node1_rdma_resource : Option String) (cluster_networks : List SriovNetwork) :
    Except String (Option String) :=
  let rdma_type := match node1_rdma_resource with
    | some r => firstSegment r
    | none => ""
  let is_roce := strContainsB rdma_type "roce"
  if config_sriov_network = none then
    if is_roce then
      let sriov_networks := detect_sriov_networks cluster_networks namespace_
      if ¬ sriov_networks.isEmpty then
        match select_sriov_network sriov_networks with
        | some selected => .ok (some selected)
        | none => .error (msgNoSuitableSriov namespace_ sriov_networks.length)
      else .error (msgNoSriovFound namespace_)
    else .ok none
  else .ok none

/-- The namespace appears verbatim in the not-found message. -/
theorem ns_infix_msgNoSriovFound (ns : String) :
    ns.data <:+: (msgNoSriovFound ns).data := by
  refine ⟨msgNoSriovA.data, (msgNoSriovB ++ ns ++ msgNoSriovC).data, ?_⟩
  simp only [msgNoSriovFound, String.data_append, List.append_assoc]

/-- The `--sriov-network` suggestion appears verbatim in the not-found
message. -/
theorem sriov_flag_infix_msgNoSriovFound (ns : String) :
    "--sriov-network".data <:+: (msgNoSriovFound ns).data := by
  have hC : "--sriov-network".data <:+: msgNoSriovC.data := by decide
  have : (msgNoSriovFound ns).data =
      (msgNoSriovA ++ ns ++ msgNoSriovB ++ ns).data ++ msgNoSriovC.data := by
    simp only [msgNoSriovFound, String.data_append, List.append_assoc]
  rw [this]
  exact infix_append_of_infix_right _ hC

/-- C7: if the selected pair's RDMA resource indicates RoCE, no
`--sriov-network` was configured, and no listed SR-IOV network's
`networkNamespace` equals the target namespace, then the run aborts with an
error before `execute_test` (no workload resource is created), and the error
message contains the target namespace and the string `--sriov-network`. -/
theorem roce_without_sriov_aborts_before_deploy
    (ns : String) (rr : String) (cluster_networks : List SriovNetwork)
    (hroce : strContainsB (firstSegment rr) "roce" = true)
    (hdetect : detect_sriov_networks cluster_networks ns = []) :
    runSriovPhase none ns (some rr) cluster_networks = .error (msgNoSriovFound ns) ∧
    ns.data <:+: (msgNoSriovFound ns).data ∧
    "--sriov-network".data <:+: (msgNoSriovFound ns).data := by
  refine ⟨?_, ns_infix_msgNoSriovFound ns, sriov_flag_infix_msgNoSriovFound ns⟩
  unfold runSriovPhase
  simp only [hdetect, hroce]
  simp

/-- C7 witness: the abort theorem at a concrete configuration (one cluster
network targeting a different namespace). -/
theorem roce_without_sriov_aborts_witness :
    runSriovPhase none "rdma-test" (some "rdma/roce_gdr: 1")
        [⟨some "roce-p2", some "other-ns", "mlnx_sriov"⟩] =
      .error (msgNoSriovFound "rdma-test") ∧
    "rdma-test".data <:+: (msgNoSriovFound "rdma-test").data ∧
    "--sriov-network".data <:+: (msgNoSriovFound "rdma-test").data :=
  roce_without_sriov_aborts_before_deploy "rdma-test" "rdma/roce_gdr: 1"
    [⟨some "roce-p2", some "other-ns", "mlnx_sriov"⟩] (by decide) (by decide)

/-! ## Quantity arithmetic (hermes/src/analyzer.rs `add_quantities`, C8) -/

/-- i128 range check. -/
def i128InRange (v : Int) : Prop :=
  -(2 ^ 127) ≤ v ∧ v ≤ 2 ^ 127 - 1

instance (v : Int) : Decidable (i128InRange v) := by
  unfold i128InRange; infer_instance

/-- Rust `i128::checked_add`. -/
def checkedAdd (a b : Int) : Option Int :=
  if i128InRange (a + b) then some (a + b) else none

/-- Rust `i128::checked_mul`. -/
def checkedMul (a b : Int) : Option Int :=
  if i128InRange (a * b) then some (a * b) else none

/-- Rust `as i128` on an `f64`: saturating cast. -/
def i128Sat (v : Int) : Int :=
  if v < -(2 ^ 127) then -(2 ^ 127)
  else if v > 2 ^ 127 - 1 then 2 ^ 127 - 1
  else v

/-- The quantity strings `add_quantities` receives, by parse shape:
`<n>m`, bare `<n>`, `<n>Ki`, `<n>Mi`, `<n>Gi` (each with an integer `<n>`),
or anything else (`invalid`).  Strings whose numeric part is not a plain
integer (e.g. a fractional core count) are outside the model. -/
inductive QtyStr
  | milli (n : Int)
  | bare (n : Int)
  | ki (n : Int)
  | mi (n : Int)
  | gi (n : Int)
  | invalid (s : String)
deriving DecidableEq

/-- The string the quantity renders as. -/
def QtyStr.render : QtyStr → String
  | .milli n => toString n ++ "m"
  | .bare n => toString n
  | .ki n => toString n ++ "Ki"
  | .mi n => toString n ++ "Mi"
  | .gi n => toString n ++ "Gi"
  | .invalid s => s

/-- Rust `q.0.ends_with('m')` on the rendered string. -/
def QtyStr.endsM : QtyStr → Bool
  | .milli _ => true
  | _ => false

/-- Rust `q.0.ends_with("Ki")`. -/
def QtyStr.endsKi : QtyStr → Bool
  | .ki _ => true
  | _ => false

/-- Rust `q.0.ends_with("Mi")`. -/
def QtyStr.endsMi : QtyStr → Bool
  | .mi _ => true
  | _ => false

/-- Rust `q.0.ends_with("Gi")`. -/
def QtyStr.endsGi : QtyStr → Bool
  | .gi _ => true
  | _ => false

/-- The `parse_value` closure of `add_quantities` (hermes/src/analyzer.rs
lines 569-591), on the modelled shapes, in source order: `'m'` suffix parses
the integer as i128 millicores; otherwise an `f64` parse is attempted — it
succeeds exactly on the bare shape, and `(val * 1000.0) as i128` is a
saturating cast (here modelled exactly, which is faithful for integers whose
scaled value is exactly representable in `f64`); then `Ki`/`Mi`/`Gi` parse
the integer and scale with `checked_mul`; i128 literal parses out of the
i128 range fail. -/
def parse_value : QtyStr → Option Int
  | .milli n => if i128InRange n then some n else none
  | .bare n => some (i128Sat (n * 1000))
  | .ki n => if i128InRange n then checkedMul n 1024 else none
  | .mi n => if i128InRange n then checkedMul n (1024 * 1024) else none
  | .gi n => if i128InRange n then checkedMul n (1024 * 1024 * 1024) else none
  | .invalid _ => none

/-- `ClusterAnalyzer::add_quantities` (hermes/src/analyzer.rs lines 561-622):
parse both, `checked_add`, then render the sum in the dominant unit
(`m`, then `Gi`, `Mi`, `Ki`, then plain); on parse failure or add overflow
return the first quantity's string unchanged.  Rust's `/` on i128 truncates
toward zero (`Int.tdiv`). -/
def add_quantities (q1 q2 : QtyStr) : String :=
  match parse_value q1, parse_value q2 with
  | some v1, some v2 =>
    match checkedAdd v1 v2 with
    | some sum =>
      if q1.endsM || q2.endsM then toString sum ++ "m"
      else if q1.endsGi || q2.endsGi then
        toString (Int.tdiv sum (1024 * 1024 * 1024)) ++ "Gi"
      else if q1.endsMi || q2.endsMi then
        toString (Int.tdiv sum (1024 * 1024)) ++ "Mi"
      else if q1.endsKi || q2.endsKi then
        toString (Int.tdiv sum 1024) ++ "Ki"
      else toString sum
    | none => q1.render
  | _, _ => q1.render

theorem parse_value_milli_eq (x : Int) (h : x.natAbs ≤ 2 ^ 126) :
    parse_value (.milli x) = some x := by
  simp only [parse_value]
  rw [if_pos (by unfold i128InRange; omega)]

theorem parse_value_bare_eq (x : Int) (h : x.natAbs ≤ 2 ^ 110) :
    parse_value (.bare x) = some (x * 1000) := by
  simp only [parse_value, i128Sat]
  rw [if_neg (by omega), if_neg (by omega)]

theorem parse_value_ki_eq (x : Int) (h : x.natAbs ≤ 2 ^ 110) :
    parse_value (.ki x) = some (x * 1024) := by
  simp only [parse_value, checkedMul]
  rw [if_pos (by unfold i128InRange; omega), if_pos (by unfold i128InRange; omega)]

theorem parse_value_mi_eq (x : Int) (h : x.natAbs ≤ 2 ^ 100) :
    parse_value (.mi x) = some (x * (1024 * 1024)) := by
  simp only [parse_value, checkedMul]
  rw [if_pos (by unfold i128InRange; omega), if_pos (by unfold i128InRange; omega)]

theorem parse_value_gi_eq (x : Int) (h : x.natAbs ≤ 2 ^ 90) :
    parse_value (.gi x) = some (x * (1024 * 1024 * 1024)) := by
  simp only [parse_value, checkedMul]
  rw [if_pos (by unfold i128InRange; omega), if_pos (by unfold i128InRange; omega)]

theorem checkedAdd_eq (a b : Int) (ha : a.natAbs ≤ 2 ^ 125) (hb : b.natAbs ≤ 2 ^ 125) :
    checkedAdd a b = some (a + b) := by
  unfold checkedAdd
  rw [if_pos (by unfold i128InRange; omega)]

/-- C8 (amended): `add_quantities` parses `m`-suffixed values as millicores,
`Ki`/`Mi`/`Gi` values as bytes via checked multiplication, and *suffixless
values as cores scaled by 1000 through the f64 path* (not as bytes, contrary
to the claim); the checked i128 sum is rendered in the dominant input unit
(`Ki`+`Mi` in `Mi`, `Gi`+bare in `Gi`, millicores+cores in `m`); on a parse
failure or a checked-add overflow, the first operand's string is returned
unchanged.  The bounds keep every intermediate inside i128 (and inside the
exactly-representable f64 integers for the bare path). -/
theorem add_quantities_unit_and_fallback (x y : Int) (s : String)
    (hx : x.natAbs ≤ 2 ^ 40) (hy : y.natAbs ≤ 2 ^ 40) :
    add_quantities (.ki x) (.mi y) =
      toString (Int.tdiv (x * 1024 + y * (1024 * 1024)) (1024 * 1024)) ++ "Mi" ∧
    add_quantities (.gi x) (.bare y) =
      toString (Int.tdiv (x * (1024 * 1024 * 1024) + y * 1000)
        (1024 * 1024 * 1024)) ++ "Gi" ∧
    add_quantities (.milli x) (.bare y) = toString (x + y * 1000) ++ "m" ∧
    add_quantities (.invalid s) (.mi y) = s ∧
    add_quantities (.mi y) (.invalid s) = toString y ++ "Mi" ∧
    add_quantities (.milli (2 ^ 126)) (.milli (2 ^ 126)) =
      toString ((2 : Int) ^ 126) ++ "m" := by
  refine ⟨?_, ?_, ?_, ?_, ?_, ?_⟩
  · unfold add_quantities
    rw [parse_value_ki_eq x (by omega), parse_value_mi_eq y (by omega)]
    dsimp only
    rw [checkedAdd_eq _ _ (by omega) (by omega)]
    rfl
  · unfold add_quantities
    rw [parse_value_gi_eq x (by omega), parse_value_bare_eq y (by omega)]
    dsimp only
    rw [checkedAdd_eq _ _ (by omega) (by omega)]
    rfl
  · unfold add_quantities
    rw [parse_value_milli_eq x (by omega), parse_value_bare_eq y (by omega)]
    dsimp only
    rw [checkedAdd_eq _ _ (by omega) (by omega)]
    rfl
  · rfl
  · unfold add_quantities
    rw [parse_value_mi_eq y (by omega)]
    rfl
  · unfold add_quantities
    rw [parse_value_milli_eq _ (by norm_num)]
    dsimp only
    unfold checkedAdd
    rw [if_neg (by unfold i128InRange; omega)]
    rfl

set_option maxRecDepth 4000 in
/-- C8 counterexample: the claim says a suffixless operand is parsed as raw
*bytes*, so `"1Gi" + "1073741824"` (one gibibyte plus one gibibyte in bytes)
would total `"2Gi"`; the code parses the suffixless operand as f64 *cores*,
multiplies by 1000, and renders `"1001Gi"`. -/
theorem add_quantities_raw_bytes_cex :
    add_quantities (.gi 1) (.bare 1073741824) = "1001Gi" ∧
    ("1001Gi" : String) ≠ "2Gi" := by
  constructor
  · rfl
  · decide

/-- C8 witness: the amended theorem at `x = 1`, `y = 1`, `s = "oops"`. -/
theorem add_quantities_unit_and_fallback_witness :
    add_quantities (.ki 1) (.mi 1) =
      toString (Int.tdiv ((1 : Int) * 1024 + 1 * (1024 * 1024)) (1024 * 1024)) ++ "Mi" ∧
    add_quantities (.gi 1) (.bare 1) =
      toString (Int.tdiv ((1 : Int) * (1024 * 1024 * 1024) + 1 * 1000)
        (1024 * 1024 * 1024)) ++ "Gi" ∧
    add_quantities (.milli 1) (.bare 1) = toString ((1 : Int) + 1 * 1000) ++ "m" ∧
    add_quantities (.invalid "oops") (.mi 1) = "oops" ∧
    add_quantities (.mi 1) (.invalid "oops") = toString (1 : Int) ++ "Mi" ∧
    add_quantities (.milli (2 ^ 126)) (.milli (2 ^ 126)) =
      toString ((2 : Int) ^ 126) ++ "m" :=
  add_quantities_unit_and_fallback 1 1 "oops" (by decide) (by decide)

/-! ## GPU allocation accounting (C9): src/src/analyzer.rs vs
hermes/src/analyzer.rs `populate_gpu_allocations` -/

/-- One container's `resources.requests` (the two source `Option`s
`resources` and `requests` are collapsed into one). -/
structure ContainerK where
  requests : Option LMap
deriving DecidableEq

/-- `Pod.spec`: `node_name` and `containers`. -/
structure PodSpecK where
  node_name : Option String
  containers : List ContainerK
deriving DecidableEq

/-- The parts of a `Pod` the allocation pass reads. -/
structure PodK where
  phase : Option String
  spec : Option PodSpecK
deriving DecidableEq

/-- Rust `str::parse::<u32>` on a plain digit string. -/
def parseU32 (s : String) : Option Nat :=
  if s.data ≠ [] ∧ s.data.all Char.isDigit then
    let v := s.data.foldl (fun acc c => acc * 10 + (c.toNat - '0'.toNat)) 0
    if v < 2 ^ 32 then some v else none
  else none

/-- Sum of `nvidia.com/gpu` requests over a pod spec's containers
(both sources, identically). -/
def podGpuRequests (spec : PodSpecK) : Nat :=
  (spec.containers.filterMap fun c =>
    (c.requests.bind fun r => lmapGet r "nvidia.com/gpu").bind parseU32).sum

/-- `HashMap` entry update `*entry(k).or_insert(0) += v`. -/
def bumpEntry : List (String × Nat) → String → Nat → List (String × Nat)
  | [], k, v => [(k, v)]
  | (k', v') :: rest, k, v =>
    if k' = k then (k', v' + v) :: rest else (k', v') :: bumpEntry rest k v

/-- The per-node allocated-GPU map both versions of
`populate_gpu_allocations` build: pods whose phase is `Running` or `Pending`
and whose `spec.node_name` is set contribute their summed `nvidia.com/gpu`
requests when positive. -/
def allocatedPerNode (pods : List PodK) : List (String × Nat) :=
  pods.foldl
    (fun acc pod =>
      if pod.phase ≠ some "Running" ∧ pod.phase ≠ some "Pending" then acc
      else
        match pod.spec with
        | none => acc
        | some spec =>
          match spec.node_name with
          | none => acc
          | some node_name =>
            let gpu_requests := podGpuRequests spec
            if gpu_requests > 0 then bumpEntry acc node_name gpu_requests else acc)
    []

/-- Node view of the allocation pass. -/
structure NodeInfo9 where
  name : String
  gpu_allocated : Option Nat
deriving DecidableEq

/-- `ClusterAnalyzer::populate_gpu_allocations` of src/src/analyzer.rs
(line 388): `node.gpu_allocated = allocated_per_node.get(&node.name).copied()`
— `None` when the node has no entry. -/
def populate_gpu_allocations_src (nodes : List NodeInfo9) (pods : List PodK) :
    List NodeInfo9 :=
  let m := allocatedPerNode pods
  nodes.map fun nd => { nd with gpu_allocated := List.lookup nd.name m }

/-- `ClusterAnalyzer::populate_gpu_allocations` of hermes/src/analyzer.rs
(line 492): `node.gpu_allocated = Some(map.get(&node.name).copied().unwrap_or(0))`
— always `Some`, zero when the node has no entry. -/
def populate_gpu_allocations_hermes (nodes : List NodeInfo9) (pods : List PodK) :
    List NodeInfo9 :=
  let m := allocatedPerNode pods
  nodes.map fun nd => { nd with gpu_allocated := some ((List.lookup nd.name m).getD 0) }

/-- C9 counterexample: on a node with no Running/Pending GPU pod the two
embeddings disagree — src leaves `gpu_allocated = None`, hermes writes
`Some 0` — so they are not equivalent as claimed. -/
theorem populate_gpu_allocations_differ_cex :
    populate_gpu_allocations_src [⟨"a", none⟩] [] = [⟨"a", none⟩] ∧
    populate_gpu_allocations_hermes [⟨"a", none⟩] [] = [⟨"a", some 0⟩] ∧
    populate_gpu_allocations_src [⟨"a", none⟩] [] ≠
      populate_gpu_allocations_hermes [⟨"a", none⟩] [] := by
  refine ⟨rfl, rfl, by decide⟩

/-- C9 (amended): the two versions build the identical per-node allocation
map and differ only in how an absent entry is stored: the hermes version is
exactly the src version with `gpu_allocated` defaulted to `Some 0`
(in particular both agree, with `Some v`, on every node that has an entry). -/
theorem populate_gpu_allocations_agree_up_to_default
    (nodes : List NodeInfo9) (pods : List PodK) :
    populate_gpu_allocations_hermes nodes pods =
      (populate_gpu_allocations_src nodes pods).map
        (fun nd => { nd with gpu_allocated := some (nd.gpu_allocated.getD 0) }) := by
  unfold populate_gpu_allocations_hermes populate_gpu_allocations_src
  rw [List.map_map]
  rfl

/-! ## Node view shared by the topology selector and the node selector -/

/-- `ImageCacheStatus` from src/models.rs. -/
inductive ImageCacheStatus
  | Cached | NotCached | Unknown
deriving DecidableEq, Repr

/-- The `NodeInfo` fields the topology selector (src/topology_selector.rs)
and node selector (hermes/src/node_selector.rs) read. -/
structure NodeInfoS where
  name : String
  rdma_capable : Bool
  rdma_resource : Option String
  gpu_count : Option Nat
  topology_block : Option String
  leafgroup : Option String
  image_cache_status : ImageCacheStatus
  node_labels : LMap
deriving DecidableEq, Repr

/-- `TopologySelector::get_topology_key` per platform (src/topology_selector.rs):
CoreWeave keys on `leafgroup`, every other platform on `topology_block`. -/
def get_topology_key (pt : PlatformType) (n : NodeInfoS) : Option String :=
  match pt with
  | .CoreWeave => n.leafgroup
  | _ => n.topology_block

/-- `TopologySelector::calculate_cache_score` (src/topology_selector.rs lines
16-24). -/
def calculate_cache_score (n1 n2 : NodeInfoS) : Nat :=
  match n1.image_cache_status, n2.image_cache_status with
  | .Cached, .Cached => 3
  | .Cached, _ => 2
  | _, .Cached => 2
  | _, _ => 1

/-- `format_selection_reason` of the four selector impls
(src/topology_selector.rs). -/
def format_selection_reason (pt : PlatformType) (rdma_type topology : String)
    (is_fallback : Bool) : String :=
  match pt with
  | .CoreWeave =>
    if is_fallback then
      "CoreWeave fallback: " ++ rdma_type ++ " RDMA nodes (topology may differ)"
    else
      "Optimal CoreWeave same-topology: " ++ rdma_type ++ " RDMA within leafgroup '" ++
        topology ++ "'"
  | .GKE =>
    if is_fallback then
      "GKE fallback: " ++ rdma_type ++ " RDMA nodes (topology may differ)"
    else "Optimal GKE same-topology: " ++ rdma_type ++ " RDMA within '" ++ topology ++ "'"
  | .OpenShift =>
    if is_fallback then
      "OpenShift fallback: " ++ rdma_type ++ " RDMA nodes (topology may differ)"
    else
      "Optimal OpenShift same-topology: " ++ rdma_type ++ " RDMA within '" ++ topology ++ "'"
  | .GenericKubernetes =>
    if is_fallback then
      "Generic fallback: " ++ rdma_type ++ " RDMA nodes (topology may differ)"
    else "Optimal same-topology: " ++ rdma_type ++ " RDMA within '" ++ topology ++ "'"

/-- `HashMap::entry(k).or_default().push(v)`: append `v` to the entry of `k`,
creating it at the end when absent (the model fixes first-insertion order
where Rust's `HashMap` iteration order is unspecified). -/
def groupAdd {κ α : Type} [DecidableEq κ] :
    List (κ × List α) → κ → α → List (κ × List α)
  | [], k, v => [(k, [v])]
  | (k', vs) :: rest, k, v =>
    if k' = k then (k', vs ++ [v]) :: rest else (k', vs) :: groupAdd rest k v

/-- Group a list by an optional key, dropping keyless elements (the
`if let Some(key) = ...` grouping fold of src/topology_selector.rs lines
33-39, and the gpu-count bucketing of hermes/src/node_selector.rs lines
273-277). -/
def groupByOpt {κ α : Type} [DecidableEq κ] (f : α → Option κ) (l : List α) :
    List (κ × List α) :=
  l.foldl
    (fun acc x =>
      match f x with
      | some k => groupAdd acc k x
      | none => acc)
    []

/-- All unordered pairs `(i, j)` with `i` before `j`, in the double-loop
order of src/topology_selector.rs lines 47-48. -/
def allPairs {α : Type} : List α → List (α × α)
  | [] => []
  | x :: xs => xs.map (fun y => (x, y)) ++ allPairs xs

/-- The running best pair update of src/topology_selector.rs lines 53-65:
replace only on a strictly greater cache score. -/
def updateBest (acc : Option (NodeInfoS × NodeInfoS × String × Nat))
    (cand : NodeInfoS × NodeInfoS × String × Nat) :
    Option (NodeInfoS × NodeInfoS × String × Nat) :=
  match acc with
  | none => some cand
  | some b => if cand.2.2.2 > b.2.2.2 then some cand else some b

/-- `TopologySelector::select_same_topology_pair` (src/topology_selector.rs
lines 27-89).  The source returns `Result<Option<..>>` but never errors, so
the model returns the `Option`. -/
def select_same_topology_pair (pt : PlatformType) (rdma_type : String)
    (nodes : List NodeInfoS) : Option (NodeInfoS × NodeInfoS × String) :=
  let topology_groups := groupByOpt (get_topology_key pt) nodes
  let best_pair := topology_groups.foldl
    (fun acc g =>
      if g.2.length ≥ 2 then
        (allPairs g.2).foldl
          (fun a p =>
            updateBest a (p.1, p.2, format_selection_reason pt rdma_type g.1 false,
              calculate_cache_score p.1 p.2))
          acc
      else acc)
    none
  match best_pair with
  | some (n1, n2, reason, cache_score) =>
    let reason :=
      if n1.image_cache_status ≠ .Unknown ∨ n2.image_cache_status ≠ .Unknown then
        reason ++ " (cache score: " ++ toString cache_score ++ ")"
      else reason
    some (n1, n2, reason)
  | none =>
    match nodes with
    | n1 :: n2 :: _ => some (n1, n2, format_selection_reason pt rdma_type "unknown" true)
    | _ => none

/-- Both endpoints carry the same present topology key. -/
def SameKeyPair (pt : PlatformType) (a b : NodeInfoS) : Prop :=
  ∃ k, get_topology_key pt a = some k ∧ get_topology_key pt b = some k

/-- `groupAdd` preserves an entry-wise predicate relating each element to its
key. -/
theorem groupAdd_entry_pred {κ α : Type} [DecidableEq κ] (P : κ → α → Prop) :
    ∀ (acc : List (κ × List α)) (k : κ) (v : α),
      (∀ g ∈ acc, ∀ x ∈ g.2, P g.1 x) → P k v →
      ∀ g ∈ groupAdd acc k v, ∀ x ∈ g.2, P g.1 x := by
  intro acc
  induction acc with
  | nil =>
    intro k v _ hv g hg x hx
    simp [groupAdd] at hg
    subst hg
    simp at hx
    subst hx
    exact hv
  | cons hd tl ih =>
    intro k v hacc hv g hg x hx
    obtain ⟨k', vs⟩ := hd
    by_cases hk : k' = k
    · simp [groupAdd, hk] at hg
      rcases hg with hg | hg
      · subst hg
        simp at hx
        rcases hx with hx | hx
        · exact hacc (k, vs) (by simp [← hk]) x (by simpa [hk] using hx)
        · subst hx; exact hv
      · exact hacc g (by simp [hg]) x hx
    · simp [groupAdd, hk] at hg
      rcases hg with hg | hg
      · subst hg
        exact hacc (k', vs) (by simp) x hx
      · exact ih k v (fun g' hg' => hacc g' (by simp [hg'])) hv g hg x hx

/-- Every element of a `groupByOpt` entry comes from the input list and has
the entry's key. -/
theorem groupByOpt_entry_pred {κ α : Type} [DecidableEq κ]
    (f : α → Option κ) (l : List α) :
    ∀ g ∈ groupByOpt f l, ∀ x ∈ g.2, f x = some g.1 ∧ x ∈ l := by
  have main : ∀ (l' : List α) (acc : List (κ × List α)),
      (∀ g ∈ acc, ∀ x ∈ g.2, f x = some g.1 ∧ x ∈ l) →
      (∀ x ∈ l', x ∈ l) →
      ∀ g ∈ (l'.foldl
          (fun acc x =>
            match f x with
            | some k => groupAdd acc k x
            | none => acc)
          acc), ∀ x ∈ g.2, f x = some g.1 ∧ x ∈ l := by
    intro l'
    induction l' with
    | nil => intro acc hacc _ g hg; exact hacc g hg
    | cons y ys ih =>
      intro acc hacc hsub g hg
      simp only [List.foldl_cons] at hg
      cases hf : f y with
      | none =>
        rw [hf] at hg
        exact ih acc hacc (fun x hx => hsub x (by simp [hx])) g hg
      | some k =>
        rw [hf] at hg
        refine ih (groupAdd acc k y) ?_ (fun x hx => hsub x (by simp [hx])) g hg
        exact groupAdd_entry_pred (fun k' x => f x = some k' ∧ x ∈ l) acc k y hacc
          ⟨hf, hsub y (by simp)⟩
  intro g hg
  exact main l [] (by simp) (fun x hx => hx) g hg

/-- Both components of an `allPairs` pair are members of the list. -/
theorem allPairs_mem {α : Type} (l : List α) :
    ∀ p ∈ allPairs l, p.1 ∈ l ∧ p.2 ∈ l := by
  induction l with
  | nil => intro p hp; simp [allPairs] at hp
  | cons x xs ih =>
    intro p hp
    simp only [allPairs, List.mem_append, List.mem_map] at hp
    rcases hp with ⟨y, hy, hxy⟩ | hp
    · subst hxy; exact ⟨by simp, by simp [hy]⟩
    · obtain ⟨h1, h2⟩ := ih p hp
      exact ⟨by simp [h1], by simp [h2]⟩

/-- A fold of `updateBest` whose accumulator and every candidate satisfy `P`
produces a result satisfying `P`. -/
theorem foldl_updateBest_pred (P : NodeInfoS × NodeInfoS × String × Nat → Prop)
    {β : Type} (mk : β → NodeInfoS × NodeInfoS × String × Nat) (l : List β)
    (hl : ∀ b ∈ l, P (mk b)) :
    ∀ acc, (∀ x, acc = some x → P x) →
      ∀ x, l.foldl (fun a b => updateBest a (mk b)) acc = some x → P x := by
  induction l with
  | nil => intro acc hacc x hx; exact hacc x hx
  | cons b bs ih =>
    intro acc hacc x hx
    simp only [List.foldl_cons] at hx
    refine ih (fun b' hb' => hl b' (by simp [hb'])) (updateBest acc (mk b)) ?_ x hx
    intro y hy
    unfold updateBest at hy
    cases hacc' : acc with
    | none =>
      rw [hacc'] at hy
      simp at hy
      subst hy
      exact hl b (by simp)
    | some a0 =>
      rw [hacc'] at hy
      simp at hy
      split at hy <;> simp at hy <;> subst hy
      · exact hl b (by simp)
      · exact hacc a0 hacc'

/-- The best pair found in the grouped search always joins two nodes of one
topology group, hence with equal present keys. -/
theorem best_pair_same_key (pt : PlatformType) (rdma_type : String)
    (nodes : List NodeInfoS) :
    ∀ x, (groupByOpt (get_topology_key pt) nodes).foldl
        (fun acc g =>
          if g.2.length ≥ 2 then
            (allPairs g.2).foldl
              (fun a p =>
                updateBest a (p.1, p.2, format_selection_reason pt rdma_type g.1 false,
                  calculate_cache_score p.1 p.2))
              acc
          else acc)
        none = some x →
      SameKeyPair pt x.1 x.2.1 := by
  have main : ∀ (gs : List (String × List NodeInfoS)),
      (∀ g ∈ gs, ∀ y ∈ g.2, get_topology_key pt y = some g.1) →
      ∀ acc, (∀ x, acc = some x → SameKeyPair pt x.1 x.2.1) →
      ∀ x, gs.foldl
          (fun acc g =>
            if g.2.length ≥ 2 then
              (allPairs g.2).foldl
                (fun a p =>
                  updateBest a (p.1, p.2, format_selection_reason pt rdma_type g.1 false,
                    calculate_cache_score p.1 p.2))
                acc
            else acc)
          acc = some x →
        SameKeyPair pt x.1 x.2.1 := by
    intro gs
    induction gs with
    | nil => intro _ acc hacc x hx; exact hacc x hx
    | cons g gs ih =>
      intro hgs acc hacc x hx
      simp only [List.foldl_cons] at hx
      refine ih (fun g' hg' y hy => hgs g' (by simp [hg']) y hy) _ ?_ x hx
      by_cases hlen : g.2.length ≥ 2
      · rw [if_pos hlen]
        intro y hy
        refine foldl_updateBest_pred (fun t => SameKeyPair pt t.1 t.2.1)
          (fun p => (p.1, p.2, format_selection_reason pt rdma_type g.1 false,
            calculate_cache_score p.1 p.2)) (allPairs g.2) ?_ acc hacc y hy
        intro p hp
        obtain ⟨h1, h2⟩ := allPairs_mem g.2 p hp
        exact ⟨g.1, hgs g (by simp) p.1 h1, hgs g (by simp) p.2 h2⟩
      · rw [if_neg hlen]
        exact hacc
  intro x hx
  refine main (groupByOpt (get_topology_key pt) nodes) ?_ none (by simp) x hx
  intro g hg y hy
  exact (groupByOpt_entry_pred (get_topology_key pt) nodes g hg y hy).1

/-- Every fallback reason string contains "fallback". -/
theorem fallback_reason_has_fallback (pt : PlatformType) (rdma_type topology : String) :
    "fallback".data <:+: (format_selection_reason pt rdma_type topology true).data := by
  cases pt <;>
    simp only [format_selection_reason, if_pos, String.data_append] <;>
    rw [List.append_assoc] <;>
    exact infix_append_of_infix_left _ (by decide)

/-- C6: every pair returned by `select_same_topology_pair` either joins two
nodes with equal present topology keys, or carries a reason string containing
"fallback". -/
theorem selected_pair_same_key_or_fallback (pt : PlatformType) (rdma_type : String)
    (nodes : List NodeInfoS) (res : NodeInfoS × NodeInfoS × String)
    (h : select_same_topology_pair pt rdma_type nodes = some res) :
    SameKeyPair pt res.1 res.2.1 ∨ "fallback".data <:+: res.2.2.data := by
  unfold select_same_topology_pair at h
  dsimp only at h
  cases hbest : (groupByOpt (get_topology_key pt) nodes).foldl
      (fun acc g =>
        if g.2.length ≥ 2 then
          (allPairs g.2).foldl
            (fun a p =>
              updateBest a (p.1, p.2, format_selection_reason pt rdma_type g.1 false,
                calculate_cache_score p.1 p.2))
            acc
        else acc)
      none with
  | some b =>
    rw [hbest] at h
    obtain ⟨n1, n2, reason, cache_score⟩ := b
    dsimp only at h
    have hkey := best_pair_same_key pt rdma_type nodes _ hbest
    left
    split at h <;> (injection h with h; subst h; exact hkey)
  | none =>
    rw [hbest] at h
    cases nodes with
    | nil => simp at h
    | cons n1 t =>
      cases t with
      | nil => simp at h
      | cons n2 rest =>
        dsimp only at h
        injection h with h
        subst h
        right
        exact fallback_reason_has_fallback pt rdma_type "unknown"

/-- A GKE node pair sharing the topology block `zone-a`. -/
def nodeW1 : NodeInfoS := ⟨"n1", true, some "1 RDMA interfaces", some 8,
  some "zone-a", none, .Unknown, []⟩

/-- Second node of the pair. -/
def nodeW2 : NodeInfoS := ⟨"n2", true, some "1 RDMA interfaces", some 8,
  some "zone-a", none, .Unknown, []⟩

/-- C6 witness: the invariant applied to a concrete same-block pair. -/
theorem selected_pair_same_key_or_fallback_witness :
    select_same_topology_pair .GKE "RoCE" [nodeW1, nodeW2] =
      some (nodeW1, nodeW2, "Optimal GKE same-topology: RoCE RDMA within 'zone-a'") ∧
    (SameKeyPair .GKE nodeW1 nodeW2 ∨
      "fallback".data <:+:
        ("Optimal GKE same-topology: RoCE RDMA within 'zone-a'" : String).data) := by
  constructor
  · decide
  · exact selected_pair_same_key_or_fallback .GKE "RoCE" [nodeW1, nodeW2]
      (nodeW1, nodeW2, "Optimal GKE same-topology: RoCE RDMA within 'zone-a'") (by decide)

/-! ## Node selection (hermes/src/node_selector.rs `select_nodes_from_report`) -/

/-- The `ClusterReport` fields node selection reads. -/
structure ClusterReportS where
  nodes : List NodeInfoS
  platform_type : PlatformType
deriving Repr

/-- The RDMA-capable filter (hermes/src/node_selector.rs lines 244-249). -/
def rdmaCandidates (report : ClusterReportS) : List NodeInfoS :=
  report.nodes.filter (·.rdma_capable)

/-- The candidate list after the `ib_only` and `min_gpus_per_node` filters
(hermes/src/node_selector.rs lines 256-267). -/
def survivorCandidates (report : ClusterReportS) (params : NodeSelectionParams) :
    List NodeInfoS :=
  let c0 := rdmaCandidates report
  let c1 :=
    if params.ib_only then
      c0.filter fun nd =>
        match nd.rdma_resource with
        | some r => strContainsB r "ib" || strContainsB r "IB"
        | none => false
    else c0
  match params.min_gpus_per_node with
  | some m => c1.filter fun nd => nd.gpu_count.getD 0 ≥ m
  | none => c1

/-- Insert into a descending-sorted list, after all elements that are
greater or equal (stable descending insertion). -/
def insertDescNat (x : Nat) : List Nat → List Nat
  | [] => [x]
  | y :: ys => if y ≥ x then y :: insertDescNat x ys else x :: y :: ys

/-- `gpu_counts.sort_by(|a, b| b.cmp(a))` — sort descending (the keys are
distinct, so any comparison sort gives this result). -/
def sortDescNat (l : List Nat) : List Nat :=
  l.foldl (fun acc x => insertDescNat x acc) []

/-- The split-search loop of optimize mode (hermes/src/node_selector.rs lines
284-295): walk the gpu counts in descending order and take the first count
that divides the total with enough nodes in its bucket.  The outer `none`
models the `u32` remainder panic `gpus % 0`; `some none` means no split
found; `some (some (needed_nodes, gpu_count))` is `best_split`. -/
def findSplit (gpus : Nat) (by_gpu : List (Nat × List NodeInfoS)) :
    List Nat → Option (Option (Nat × Nat))
  | [] => some none
  | g :: rest =>
    if g = 0 then none
    else if gpus % g = 0 ∧ gpus / g ≤ ((List.lookup g by_gpu).getD []).length then
      some (some (gpus / g, g))
    else findSplit gpus by_gpu rest

/-- Optimize mode (hermes/src/node_selector.rs lines 271-302): bucket the
candidates by exact `gpu_count`, search for the best split, and on success
retain only candidates whose `gpu_count.unwrap_or(0)` equals the chosen
count; with no split, `bail!`.  Outer `none` models the panic inherited from
`findSplit`. -/
def optimizeSplit (gpus : Nat) (cands : List NodeInfoS) :
    Option (Except String (Nat × List NodeInfoS)) :=
  let by_gpu := groupByOpt (fun nd => nd.gpu_count) cands
  let keys := sortDescNat (by_gpu.map (·.1))
  match findSplit gpus by_gpu keys with
  | none => none
  | some none => some (.error ("Cannot satisfy " ++ toString gpus ++
      " total GPUs with available nodes"))
  | some (some (n, g)) =>
    some (.ok (n, cands.filter fun nd => nd.gpu_count.getD 0 == g))

/-- Rust `iter().enumerate()`. -/
def enumFromM {α : Type} (i : Nat) : List α → List (Nat × α)
  | [] => []
  | x :: xs => (i, x) :: enumFromM (i + 1) xs

/-- `SelectedNode` from hermes/src/node_selector.rs. -/
structure SelectedNodeS where
  name : String
  rdma_resource : String
  gpus : Nat
  topology_block : Option String
  rank : Nat
  labels : LMap
deriving DecidableEq, Repr

/-- `SelectionSummary`. -/
structure SelectionSummaryS where
  total_nodes : Nat
  total_gpus : Nat
  gpus_per_node : Nat
  world_size : Nat
deriving DecidableEq, Repr

/-- `TopologyInfo`. -/
structure TopologyInfoS where
  all_same_block : Bool
  blocks : List (String × Nat)
  selection_reason : String
deriving DecidableEq, Repr

/-- `NodeSelection`. -/
structure NodeSelectionS where
  nodes : List SelectedNodeS
  summary : SelectionSummaryS
  topology : TopologyInfoS
  platform : String
  rdma_type : String
deriving DecidableEq, Repr

/-- Rust `format!("{:?}", platform_type)`. -/
def platformDebug : PlatformType → String
  | .CoreWeave => "CoreWeave"
  | .OpenShift => "OpenShift"
  | .GKE => "GKE"
  | .GenericKubernetes => "GenericKubernetes"

/-- The `SelectedNode` conversion (hermes/src/node_selector.rs lines
371-382). -/
def mkSelectedNode (pt : PlatformType) (rank : Nat) (nd : NodeInfoS) : SelectedNodeS :=
  ⟨nd.name, nd.rdma_resource.getD "", nd.gpu_count.getD 0, get_topology_key pt nd,
    rank, nd.node_labels⟩

/-- Stable descending insertion of a topology group by member count. -/
def insertGroupDesc (g : String × List NodeInfoS) :
    List (String × List NodeInfoS) → List (String × List NodeInfoS)
  | [] => [g]
  | h :: t => if h.2.length ≥ g.2.length then h :: insertGroupDesc g t else g :: h :: t

/-- `sorted_groups.sort_by_key(|nodes| Reverse(nodes.len()))` — stable sort
by descending group size. -/
def sortGroupsDesc (groups : List (String × List NodeInfoS)) :
    List (String × List NodeInfoS) :=
  groups.foldl (fun acc g => insertGroupDesc g acc) []

/-- `iter().max_by_key(|(_, nodes)| nodes.len())`: the last maximal group in
iteration order. -/
def maxByLen (groups : List (String × List NodeInfoS)) :
    Option (String × List NodeInfoS) :=
  groups.foldl
    (fun acc g =>
      match acc with
      | none => some g
      | some b => if g.2.length ≥ b.2.length then some g else some b)
    none

/-- The node-picking step (hermes/src/node_selector.rs lines 328-360): when
`prefer_same_block`, the largest topology group with at least `num_nodes`
members (first N of it), else pull from the groups sorted by descending size;
without `prefer_same_block` just the first N candidates. -/
def selectedRefs (pt : PlatformType) (params : NodeSelectionParams)
    (num_nodes : Nat) (candidates : List NodeInfoS) : List NodeInfoS :=
  let topology_groups := groupByOpt
    (fun nd => some ((get_topology_key pt nd).getD "unknown")) candidates
  if params.prefer_same_block then
    match maxByLen (topology_groups.filter fun g => g.2.length ≥ num_nodes) with
    | some g => g.2.take num_nodes
    | none => (((sortGroupsDesc topology_groups).map (·.2)).flatten).take num_nodes
  else candidates.take num_nodes

/-- The `NodeSelection` assembly (hermes/src/node_selector.rs lines 370-444)
from a non-empty selected list (`first` is its head, i.e. `selected[0]`). -/
def buildSelection (pt : PlatformType) (selected_refs : List NodeInfoS)
    (first : NodeInfoS) : NodeSelectionS :=
  let selected := (enumFromM 0 selected_refs).map fun p => mkSelectedNode pt p.1 p.2
  let total_nodes := selected.length
  let total_gpus := (selected.map (·.gpus)).sum
  let first_sel := mkSelectedNode pt 0 first
  let gpus_per_node_actual :=
    if selected.all (fun n => n.gpus == first_sel.gpus) then first_sel.gpus
    else total_gpus / total_nodes
  let blocks := selected.foldl
    (fun acc n => bumpEntry acc (n.topology_block.getD "unknown") 1) []
  let all_same_block :=
    blocks.length == 1 && !(blocks.any fun b => b.1 == "unknown")
  let selection_reason :=
    if all_same_block then
      "All " ++ toString total_nodes ++ " nodes in same topology block '" ++
        (blocks.headD ("", 0)).1 ++ "' for optimal locality"
    else if blocks.length == 1 then
      "All " ++ toString total_nodes ++ " nodes selected (topology unknown)"
    else
      toString total_nodes ++ " nodes across " ++ toString blocks.length ++
        " topology blocks"
  ⟨selected,
    ⟨total_nodes, total_gpus, gpus_per_node_actual, total_gpus⟩,
    ⟨all_same_block, blocks, selection_reason⟩,
    platformDebug pt, first_sel.rdma_resource⟩

/-- The tail of `select_nodes_from_report` after the candidate filters
(hermes/src/node_selector.rs lines 308-444): group by topology key (absent
keys under "unknown"), pick nodes, then build the `NodeSelection`.  `none`
models the `selected[0]` index panic that an empty selection (requested node
count 0) hits in the summary block. -/
def finishSelection (pt : PlatformType) (params : NodeSelectionParams)
    (num_nodes : Nat) (candidates : List NodeInfoS) :
    Option (Except String NodeSelectionS) :=
  if candidates.isEmpty then some (.error "No nodes match the specified criteria")
  else
    let sr := selectedRefs pt params num_nodes candidates
    if sr.length < num_nodes then
      some (.error ("Only found " ++ toString sr.length ++
        " nodes matching criteria, need " ++ toString num_nodes))
    else
      match sr with
      | [] => none
      | first :: rest => some (.ok (buildSelection pt (first :: rest) first))

/-- `select_nodes_from_report` (hermes/src/node_selector.rs lines 237-445).
`none` models a panic, `some (.error m)` a `bail!`, `some (.ok sel)` the
returned selection. -/
def selectNodesFromReport (report : ClusterReportS) (params : NodeSelectionParams) :
    Option (Except String NodeSelectionS) :=
  match params.resolve with
  | none => none
  | some (.error e) => some (.error e)
  | some (.ok (num_nodes, gpus_per_node)) =>
    if (rdmaCandidates report).isEmpty then
      some (.error "No RDMA-capable nodes found in cluster")
    else
      let candidates := survivorCandidates report params
      match gpus_per_node with
      | some gpus =>
        if num_nodes = 0 then
          match optimizeSplit gpus candidates with
          | none => none
          | some (.error e) => some (.error e)
          | some (.ok (n, cands)) => finishSelection report.platform_type params n cands
        else
          finishSelection report.platform_type params num_nodes
            (candidates.filter fun nd => nd.gpu_count.getD 0 == gpus)
      | none => finishSelection report.platform_type params num_nodes candidates

/-! ### Grouping and sorting facts used by the selection proofs -/

/-- `List.lookup` after a `groupAdd`: the inserted key's bucket gains `v` at
the end; other keys are untouched. -/
theorem lookup_groupAdd {κ α : Type} [DecidableEq κ] [BEq κ] [LawfulBEq κ]
    (acc : List (κ × List α)) (kIns : κ) (v : α) (kQ : κ) :
    List.lookup kQ (groupAdd acc kIns v) =
      if kQ = kIns then some (((List.lookup kQ acc).getD []) ++ [v])
      else List.lookup kQ acc := by
  induction acc with
  | nil =>
    by_cases hk : kQ = kIns
    · subst hk
      simp [groupAdd, List.lookup]
    · have hb : (kQ == kIns) = false := beq_eq_false_iff_ne.mpr hk
      simp [groupAdd, List.lookup, hb, hk]
  | cons hd tl ih =>
    obtain ⟨a, vs⟩ := hd
    simp only [groupAdd]
    by_cases ha : a = kIns
    · rw [if_pos ha]
      subst ha
      by_cases hq : kQ = a
      · subst hq
        simp [List.lookup]
      · have hb : (kQ == a) = false := beq_eq_false_iff_ne.mpr hq
        simp [List.lookup, hb, hq]
    · rw [if_neg ha]
      by_cases hq : kQ = a
      · subst hq
        simp [List.lookup, ha]
      · have hb : (kQ == a) = false := beq_eq_false_iff_ne.mpr hq
        simp only [List.lookup, hb]
        exact ih

/-- The bucket of key `k` built by `groupByOpt` is exactly the sublist of
elements keyed to `k`, in input order. -/
theorem bucket_groupByOpt {κ α : Type} [DecidableEq κ] [BEq κ] [LawfulBEq κ]
    (f : α → Option κ) (l : List α) (k : κ) :
    (List.lookup k (groupByOpt f l)).getD [] =
      l.filter (fun x => f x == some k) := by
  have main : ∀ (l' : List α) (acc : List (κ × List α)),
      (List.lookup k (l'.foldl
        (fun acc x =>
          match f x with
          | some k' => groupAdd acc k' x
          | none => acc)
        acc)).getD [] =
        (List.lookup k acc).getD [] ++ l'.filter (fun x => f x == some k) := by
    intro l'
    induction l' with
    | nil => intro acc; simp
    | cons y ys ih =>
      intro acc
      simp only [List.foldl_cons]
      cases hf : f y with
      | none =>
        rw [ih]
        have : (f y == some k) = false := by simp [hf]
        simp [List.filter_cons, this]
      | some k' =>
        rw [ih]
        by_cases hk : k = k'
        · subst hk
          rw [lookup_groupAdd acc k y k]
          have : (f y == some k) = true := by simp [hf]
          simp [List.filter_cons, this]
        · rw [lookup_groupAdd acc k' y k, if_neg hk]
          have hne : (f y == some k) = false := by
            rw [hf]
            simp
            exact fun h => hk h.symm
          simp [List.filter_cons, hne]
  simpa using main l []

/-- All `groupByOpt` buckets are non-empty. -/
theorem groupByOpt_entry_ne_nil {κ α : Type} [DecidableEq κ]
    (f : α → Option κ) (l : List α) :
    ∀ g ∈ groupByOpt f l, g.2 ≠ [] := by
  have hAdd : ∀ (acc : List (κ × List α)) (k : κ) (v : α),
      (∀ g ∈ acc, g.2 ≠ []) → ∀ g ∈ groupAdd acc k v, g.2 ≠ [] := by
    intro acc
    induction acc with
    | nil =>
      intro k v _ g hg
      simp [groupAdd] at hg
      subst hg
      simp
    | cons hd tl ih =>
      intro k v hacc g hg
      obtain ⟨a, vs⟩ := hd
      by_cases ha : a = k
      · simp [groupAdd, ha] at hg
        rcases hg with hg | hg
        · subst hg; simp
        · exact hacc g (by simp [hg])
      · simp [groupAdd, ha] at hg
        rcases hg with hg | hg
        · subst hg; exact hacc (a, vs) (by simp)
        · exact ih k v (fun g' hg' => hacc g' (by simp [hg'])) g hg
  have main : ∀ (l' : List α) (acc : List (κ × List α)),
      (∀ g ∈ acc, g.2 ≠ []) →
      ∀ g ∈ (l'.foldl
        (fun acc x =>
          match f x with
          | some k' => groupAdd acc k' x
          | none => acc)
        acc), g.2 ≠ [] := by
    intro l'
    induction l' with
    | nil => intro acc hacc g hg; exact hacc g hg
    | cons y ys ih =>
      intro acc hacc g hg
      simp only [List.foldl_cons] at hg
      cases hf : f y with
      | none => rw [hf] at hg; exact ih acc hacc g hg
      | some k => rw [hf] at hg; exact ih (groupAdd acc k y) (hAdd acc k y hacc) g hg
  intro g hg
  exact main l [] (by simp) g hg

/-- A successful `List.lookup` exhibits a member. -/
theorem lookup_mem {κ β : Type} [BEq κ] [LawfulBEq κ] {k : κ} {v : β} :
    ∀ {l : List (κ × β)}, List.lookup k l = some v → (k, v) ∈ l := by
  intro l
  induction l with
  | nil => intro h; simp [List.lookup] at h
  | cons hd tl ih =>
    intro h
    obtain ⟨a, b⟩ := hd
    by_cases hk : k == a
    · simp [List.lookup, hk] at h
      have : k = a := by simpa using hk
      subst this h
      simp
    · simp [List.lookup, hk] at h
      exact List.mem_cons_of_mem _ (ih h)

/-- A key of `groupByOpt` has a source element with that key. -/
theorem mem_keys_groupByOpt {κ α : Type} [DecidableEq κ]
    (f : α → Option κ) (l : List α) (g : κ)
    (hg : g ∈ (groupByOpt f l).map (·.1)) : ∃ x ∈ l, f x = some g := by
  obtain ⟨e, he, hkey⟩ := List.mem_map.mp hg
  obtain ⟨x, hx⟩ := List.exists_mem_of_ne_nil e.2 (groupByOpt_entry_ne_nil f l e he)
  obtain ⟨hf, hmem⟩ := groupByOpt_entry_pred f l e he x hx
  exact ⟨x, hmem, hkey ▸ hf⟩

/-- Conversely every keyed source element contributes its key. -/
theorem keys_groupByOpt_of_mem {κ α : Type} [DecidableEq κ] [BEq κ] [LawfulBEq κ]
    (f : α → Option κ) (l : List α) (g : κ) (x : α)
    (hx : x ∈ l) (hf : f x = some g) : g ∈ (groupByOpt f l).map (·.1) := by
  have hbucket := bucket_groupByOpt f l g
  have hxf : x ∈ l.filter (fun y => f y == some g) :=
    List.mem_filter.mpr ⟨hx, by simp [hf]⟩
  cases hlk : List.lookup g (groupByOpt f l) with
  | none =>
    rw [hlk] at hbucket
    simp only [Option.getD_none] at hbucket
    rw [← hbucket] at hxf
    simp at hxf
  | some vs =>
    exact List.mem_map.mpr ⟨(g, vs), lookup_mem hlk, rfl⟩

/-- Membership through descending insertion. -/
theorem mem_insertDescNat (x y : Nat) :
    ∀ l, (y ∈ insertDescNat x l ↔ y = x ∨ y ∈ l) := by
  intro l
  induction l with
  | nil => simp [insertDescNat]
  | cons z zs ih =>
    by_cases hz : z ≥ x
    · simp [insertDescNat, hz, ih]
      try tauto
    · simp [insertDescNat, hz]
      try tauto

/-- Membership through the descending sort. -/
theorem mem_sortDescNat (l : List Nat) (x : Nat) :
    x ∈ sortDescNat l ↔ x ∈ l := by
  have main : ∀ (l' : List Nat) (acc : List Nat),
      (x ∈ l'.foldl (fun acc y => insertDescNat y acc) acc ↔ x ∈ acc ∨ x ∈ l') := by
    intro l'
    induction l' with
    | nil => intro acc; simp
    | cons y ys ih =>
      intro acc
      simp only [List.foldl_cons]
      rw [ih]
      rw [mem_insertDescNat]
      simp
      try tauto
  unfold sortDescNat
  rw [main l []]
  simp

/-- Descending insertion preserves descending order. -/
theorem sorted_insertDescNat (x : Nat) :
    ∀ l, l.Pairwise (· ≥ ·) → (insertDescNat x l).Pairwise (· ≥ ·) := by
  intro l
  induction l with
  | nil => intro _; simp [insertDescNat]
  | cons z zs ih =>
    intro hp
    by_cases hz : z ≥ x
    · rw [insertDescNat, if_pos hz]
      refine List.pairwise_cons.mpr ⟨?_, ih (List.pairwise_cons.mp hp).2⟩
      intro y hy
      rcases (mem_insertDescNat x y zs).mp hy with h | h
      · omega
      · exact (List.pairwise_cons.mp hp).1 y h
    · rw [insertDescNat, if_neg hz]
      refine List.pairwise_cons.mpr ⟨?_, hp⟩
      intro y hy
      rcases List.mem_cons.mp hy with h | h
      · omega
      · have := (List.pairwise_cons.mp hp).1 y h
        omega

/-- The descending sort is descending. -/
theorem sorted_sortDescNat (l : List Nat) :
    (sortDescNat l).Pairwise (· ≥ ·) := by
  have main : ∀ (l' : List Nat) (acc : List Nat), acc.Pairwise (· ≥ ·) →
      (l'.foldl (fun acc y => insertDescNat y acc) acc).Pairwise (· ≥ ·) := by
    intro l'
    induction l' with
    | nil => intro acc h; simpa using h
    | cons y ys ih =>
      intro acc h
      simp only [List.foldl_cons]
      exact ih _ (sorted_insertDescNat y acc h)
  exact main l [] (by simp)

/-- No key satisfies the split condition: the scan reports no split (given
that it survives every modulo, i.e. no zero key). -/
theorem findSplit_none (gpus : Nat) (by_gpu : List (Nat × List NodeInfoS)) :
    ∀ ks, (∀ g ∈ ks, g ≠ 0) →
      (∀ g ∈ ks, ¬(gpus % g = 0 ∧ gpus / g ≤ ((List.lookup g by_gpu).getD []).length)) →
      findSplit gpus by_gpu ks = some none := by
  intro ks
  induction ks with
  | nil => intro _ _; rfl
  | cons g rest ih =>
    intro h0 hno
    rw [findSplit, if_neg (h0 g (by simp)), if_neg (hno g (by simp))]
    exact ih (fun g' hg' => h0 g' (by simp [hg'])) (fun g' hg' => hno g' (by simp [hg']))

/-- A found split takes the first satisfying key of the scan order; on a
descending key list it is therefore the largest satisfying key. -/
theorem findSplit_first (gpus : Nat) (by_gpu : List (Nat × List NodeInfoS)) :
    ∀ ks n g, (∀ g' ∈ ks, g' ≠ 0) → ks.Pairwise (· ≥ ·) →
      findSplit gpus by_gpu ks = some (some (n, g)) →
      g ∈ ks ∧ gpus % g = 0 ∧ gpus / g ≤ ((List.lookup g by_gpu).getD []).length ∧
        n = gpus / g ∧
        ∀ g' ∈ ks,
          (gpus % g' = 0 ∧ gpus / g' ≤ ((List.lookup g' by_gpu).getD []).length) →
          g' ≤ g := by
  intro ks
  induction ks with
  | nil => intro n g _ _ h; simp [findSplit] at h
  | cons k rest ih =>
    intro n g h0 hsorted h
    rw [findSplit, if_neg (h0 k (by simp))] at h
    by_cases hc : gpus % k = 0 ∧ gpus / k ≤ ((List.lookup k by_gpu).getD []).length
    · rw [if_pos hc] at h
      injection h with h1
      injection h1 with h2
      have hn : n = gpus / k := (Prod.ext_iff.mp h2).1.symm
      have hg : g = k := (Prod.ext_iff.mp h2).2.symm
      subst hn
      subst hg
      refine ⟨by simp, hc.1, hc.2, rfl, ?_⟩
      intro g' hg' _
      rcases List.mem_cons.mp hg' with hk | hk
      · omega
      · exact (List.pairwise_cons.mp hsorted).1 g' hk
    · rw [if_neg hc] at h
      have hrec := ih n g (fun g' hg' => h0 g' (by simp [hg']))
        (List.pairwise_cons.mp hsorted).2 h
      obtain ⟨hmem, hmod, hlen, hn, hmax⟩ := hrec
      refine ⟨by simp [hmem], hmod, hlen, hn, ?_⟩
      intro g' hg' hcond
      rcases List.mem_cons.mp hg' with hk | hk
      · exact absurd (hk ▸ hcond) hc
      · exact hmax g' hk hcond

/-- A gpu count `g` is a feasible optimize-mode split of `gpus` total GPUs
over `cands`: positive, dividing the total evenly, with at least `gpus / g`
candidates reporting exactly that count. -/
def Feasible (gpus : Nat) (cands : List NodeInfoS) (g : Nat) : Prop :=
  g ≠ 0 ∧ gpus % g = 0 ∧
  gpus / g ≤ cands.countP (fun nd => nd.gpu_count == some g) ∧
  ∃ nd ∈ cands, nd.gpu_count = some g

/-- On a candidate list whose reported gpu counts are all positive,
feasibility coincides with key membership plus the code's split condition. -/
theorem feasible_iff_key_cond (gpus : Nat) (cands : List NodeInfoS) (g : Nat)
    (hpos : ∀ nd ∈ cands, nd.gpu_count ≠ some 0) :
    Feasible gpus cands g ↔
      (g ∈ (groupByOpt (fun nd => nd.gpu_count) cands).map (·.1) ∧
       gpus % g = 0 ∧
       gpus / g ≤
         ((List.lookup g (groupByOpt (fun nd => nd.gpu_count) cands)).getD []).length) := by
  have hbucket :
      ((List.lookup g (groupByOpt (fun nd => nd.gpu_count) cands)).getD []).length =
        cands.countP (fun nd => nd.gpu_count == some g) := by
    rw [bucket_groupByOpt (fun nd => nd.gpu_count) cands g]
    rw [List.countP_eq_length_filter]
  constructor
  · rintro ⟨hg0, hmod, hcount, nd, hnd, hgc⟩
    exact ⟨keys_groupByOpt_of_mem _ cands g nd hnd hgc, hmod, by rw [hbucket]; exact hcount⟩
  · rintro ⟨hkey, hmod, hlen⟩
    obtain ⟨nd, hnd, hgc⟩ := mem_keys_groupByOpt _ cands g hkey
    refine ⟨?_, hmod, by rw [← hbucket]; exact hlen, nd, hnd, hgc⟩
    intro hg0
    exact hpos nd hnd (hg0 ▸ hgc)

/-- C5 (amended): in optimize mode, provided no surviving candidate reports
`gpu_count = Some 0` (a zero count reached by the scan panics on
`gpus % 0` instead of erroring), `optimizeSplit` chooses the *largest*
feasible gpu count `g`, returns `gpus / g` nodes, and filters the candidate
set to the nodes whose `gpu_count.unwrap_or(0)` equals `g` (for positive `g`
this is exactly the `g` bucket); and when no feasible count exists,
`select_nodes_from_report` returns an error (a pure value — nothing is
written to the cluster, whose writes happen only in callers on `Ok`). -/
theorem optimize_mode_selection (report : ClusterReportS)
    (params : NodeSelectionParams) (gpus : Nat)
    (hres : params.resolve = some (.ok (0, some gpus)))
    (hpos : ∀ nd ∈ survivorCandidates report params, nd.gpu_count ≠ some 0) :
    (∀ n cands2,
      optimizeSplit gpus (survivorCandidates report params) = some (.ok (n, cands2)) →
      ∃ g, Feasible gpus (survivorCandidates report params) g ∧
        (∀ g', Feasible gpus (survivorCandidates report params) g' → g' ≤ g) ∧
        n = gpus / g ∧
        cands2 = (survivorCandidates report params).filter
          (fun nd => nd.gpu_count.getD 0 == g)) ∧
    ((¬ ∃ g, Feasible gpus (survivorCandidates report params) g) →
      ∃ m, selectNodesFromReport report params = some (.error m)) := by
  set cands := survivorCandidates report params with hcands
  have hkeys0 : ∀ g ∈ sortDescNat ((groupByOpt (fun nd => nd.gpu_count) cands).map (·.1)),
      g ≠ 0 := by
    intro g hg
    obtain ⟨nd, hnd, hgc⟩ :=
      mem_keys_groupByOpt (fun nd => nd.gpu_count) cands g ((mem_sortDescNat _ g).mp hg)
    intro hg0
    exact hpos nd hnd (hg0 ▸ hgc)
  constructor
  · intro n cands2 hopt
    unfold optimizeSplit at hopt
    dsimp only at hopt
    cases hfind : findSplit gpus (groupByOpt (fun nd => nd.gpu_count) cands)
        (sortDescNat ((groupByOpt (fun nd => nd.gpu_count) cands).map (·.1))) with
    | none => rw [hfind] at hopt; simp at hopt
    | some o =>
      cases o with
      | none => rw [hfind] at hopt; simp at hopt
      | some p =>
        obtain ⟨n', g⟩ := p
        rw [hfind] at hopt
        simp only at hopt
        injection hopt with hopt
        injection hopt with hpair
        have hopt1 : n' = n := by
          have := congrArg (fun p : Nat × List NodeInfoS => p.1) hpair
          simpa using this
        have hopt2 : (cands.filter fun nd => nd.gpu_count.getD 0 == g) = cands2 := by
          have := congrArg (fun p : Nat × List NodeInfoS => p.2) hpair
          simpa using this
        obtain ⟨hmem, hmod, hlen, hn, hmax⟩ :=
          findSplit_first gpus (groupByOpt (fun nd => nd.gpu_count) cands) _ n' g
            hkeys0 (sorted_sortDescNat _) hfind
        refine ⟨g, ?_, ?_, ?_, ?_⟩
        · exact (feasible_iff_key_cond gpus cands g hpos).mpr
            ⟨(mem_sortDescNat _ g).mp hmem, hmod, hlen⟩
        · intro g' hg'
          obtain ⟨hkey', hmod', hlen'⟩ := (feasible_iff_key_cond gpus cands g' hpos).mp hg'
          exact hmax g' ((mem_sortDescNat _ g').mpr hkey') ⟨hmod', hlen'⟩
        · rw [← hopt1]; exact hn
        · exact hopt2.symm
  · intro hnofeas
    have hfind : findSplit gpus (groupByOpt (fun nd => nd.gpu_count) cands)
        (sortDescNat ((groupByOpt (fun nd => nd.gpu_count) cands).map (·.1))) =
        some none := by
      refine findSplit_none gpus _ _ hkeys0 ?_
      intro g hg hcond
      exact hnofeas ⟨g, (feasible_iff_key_cond gpus cands g hpos).mpr
        ⟨(mem_sortDescNat _ g).mp hg, hcond.1, hcond.2⟩⟩
    have hopt : optimizeSplit gpus cands =
        some (.error ("Cannot satisfy " ++ toString gpus ++
          " total GPUs with available nodes")) := by
      unfold optimizeSplit
      try dsimp only
      rw [hfind]
    by_cases hempty : (rdmaCandidates report).isEmpty
    · refine ⟨"No RDMA-capable nodes found in cluster", ?_⟩
      unfold selectNodesFromReport
      rw [hres]
      simp [hempty]
    · refine ⟨"Cannot satisfy " ++ toString gpus ++ " total GPUs with available nodes", ?_⟩
      unfold selectNodesFromReport
      rw [hres]
      simp only [hempty]
      rw [if_neg (by simp [hempty])]
      try dsimp only
      rw [← hcands, hopt]
      simp

/-- An RDMA-capable node advertising zero GPUs. -/
def nodeZeroGpu : NodeInfoS := ⟨"z", true, some "rdma/ib: 1", some 0, none, none, .Unknown, []⟩

/-- A one-node report containing only the zero-GPU node. -/
def reportZeroGpu : ClusterReportS := ⟨[nodeZeroGpu], .GenericKubernetes⟩

/-- An RDMA-capable node with 8 GPUs. -/
def nodeEight : NodeInfoS := ⟨"a", true, some "rdma/ib: 1", some 8, none, none, .Unknown, []⟩

/-- A one-node report containing only the 8-GPU node. -/
def reportEight : ClusterReportS := ⟨[nodeEight], .CoreWeave⟩

/-- C5 counterexample: with a candidate advertising `gpu_count = Some 0` and
`total_gpus = 7`, no gpu count divides 7 evenly, so the claim demands a clean
selection error; the scan instead reaches the zero bucket and panics on
`7 % 0` (modelled `none`), both in `optimizeSplit` and in
`selectNodesFromReport`. -/
theorem optimize_zero_gpu_panics_cex :
    optimizeSplit 7 [nodeZeroGpu] = none ∧
    selectNodesFromReport reportZeroGpu (mkParams none (some 7) none) = none :=
  ⟨rfl, rfl⟩

/-- C5 witness: the spec's infeasible scenario (all nodes have 8 GPUs,
`total_gpus = 7`) through the amended theorem. -/
theorem optimize_mode_selection_witness :
    (¬ ∃ g, Feasible 7 (survivorCandidates reportEight (mkParams none (some 7) none)) g) ∧
    ∃ m, selectNodesFromReport reportEight (mkParams none (some 7) none) =
      some (.error m) := by
  have hsurv : survivorCandidates reportEight (mkParams none (some 7) none) = [nodeEight] :=
    rfl
  have hnofeas :
      ¬ ∃ g, Feasible 7 (survivorCandidates reportEight (mkParams none (some 7) none)) g := by
    rintro ⟨g, hg0, hmod, hcount, nd, hnd, hgc⟩
    rw [hsurv] at hnd
    simp at hnd
    subst hnd
    have hng : nodeEight.gpu_count = some 8 := rfl
    rw [hng] at hgc
    have hg8 : g = 8 := (Option.some.inj hgc).symm
    subst hg8
    exact absurd hmod (by decide)
  refine ⟨hnofeas, ?_⟩
  exact (optimize_mode_selection reportEight (mkParams none (some 7) none) 7 rfl
    (by rw [hsurv]; intro nd hnd; simp at hnd; subst hnd; decide)).2 hnofeas

/-- A fold that at each step either keeps the accumulator or replaces it by
the current element yields an element of the list (or the initial value). -/
theorem foldl_choice_mem {α : Type} (step : Option α → α → Option α)
    (hstep : ∀ acc x y, step acc x = some y → y = x ∨ acc = some y) :
    ∀ (l : List α) acc x, l.foldl step acc = some x → x ∈ l ∨ acc = some x := by
  intro l
  induction l with
  | nil => intro acc x h; exact Or.inr h
  | cons b bs ih =>
    intro acc x h
    simp only [List.foldl_cons] at h
    rcases ih (step acc b) x h with hmem | hstep'
    · exact Or.inl (by simp [hmem])
    · rcases hstep acc b x hstep' with hb | hacc
      · exact Or.inl (by simp [hb])
      · exact Or.inr hacc

/-- `maxByLen` returns a member of its input. -/
theorem maxByLen_mem (groups : List (String × List NodeInfoS))
    (g : String × List NodeInfoS) (h : maxByLen groups = some g) : g ∈ groups := by
  unfold maxByLen at h
  rcases foldl_choice_mem
      (fun acc g =>
        match acc with
        | none => some g
        | some b => if g.2.length ≥ b.2.length then some g else some b)
      (by
        intro acc x y hy
        cases acc with
        | none =>
          dsimp only at hy
          exact Or.inl (Option.some.inj hy).symm
        | some b =>
          dsimp only at hy
          by_cases hc : x.2.length ≥ b.2.length
          · rw [if_pos hc] at hy
            exact Or.inl (Option.some.inj hy).symm
          · rw [if_neg hc] at hy
            exact Or.inr hy)
      groups none g h with hmem | hnone
  · exact hmem
  · simp at hnone

/-- Membership through stable descending group insertion. -/
theorem mem_insertGroupDesc (g x : String × List NodeInfoS) :
    ∀ l, x ∈ insertGroupDesc g l → x = g ∨ x ∈ l := by
  intro l
  induction l with
  | nil => intro h; simp [insertGroupDesc] at h; exact Or.inl h
  | cons h t ih =>
    intro hx
    by_cases hc : h.2.length ≥ g.2.length
    · rw [insertGroupDesc, if_pos hc] at hx
      rcases List.mem_cons.mp hx with hx | hx
      · exact Or.inr (by simp [hx])
      · rcases ih hx with hx | hx
        · exact Or.inl hx
        · exact Or.inr (by simp [hx])
    · rw [insertGroupDesc, if_neg hc] at hx
      rcases List.mem_cons.mp hx with hx | hx
      · exact Or.inl hx
      · exact Or.inr hx

/-- Membership through the stable descending group sort. -/
theorem mem_sortGroupsDesc (groups : List (String × List NodeInfoS))
    (x : String × List NodeInfoS) (h : x ∈ sortGroupsDesc groups) : x ∈ groups := by
  have main : ∀ (l : List (String × List NodeInfoS)) acc,
      x ∈ l.foldl (fun acc g => insertGroupDesc g acc) acc → x ∈ acc ∨ x ∈ l := by
    intro l
    induction l with
    | nil => intro acc h; exact Or.inl h
    | cons b bs ih =>
      intro acc h
      simp only [List.foldl_cons] at h
      rcases ih (insertGroupDesc b acc) h with hacc | hbs
      · rcases mem_insertGroupDesc b x acc hacc with hb | hacc'
        · exact Or.inr (by simp [hb])
        · exact Or.inl hacc'
      · exact Or.inr (by simp [hbs])
  rcases main groups [] h with h' | h'
  · simp at h'
  · exact h'

/-- Rust enumeration produces members of the underlying list. -/
theorem enumFromM_mem {α : Type} :
    ∀ (l : List α) (i : Nat) (p : Nat × α), p ∈ enumFromM i l → p.2 ∈ l := by
  intro l
  induction l with
  | nil => intro i p hp; simp [enumFromM] at hp
  | cons x xs ih =>
    intro i p hp
    rw [enumFromM] at hp
    rcases List.mem_cons.mp hp with hp | hp
    · subst hp; simp
    · exact List.mem_cons_of_mem _ (ih (i + 1) p hp)

/-- Every node picked by `selectedRefs` is one of the candidates. -/
theorem selectedRefs_subset (pt : PlatformType) (params : NodeSelectionParams)
    (num : Nat) (cands : List NodeInfoS) :
    ∀ nd ∈ selectedRefs pt params num cands, nd ∈ cands := by
  intro nd hnd
  unfold selectedRefs at hnd
  dsimp only at hnd
  by_cases hp : params.prefer_same_block
  · rw [if_pos hp] at hnd
    cases hmax : maxByLen ((groupByOpt
        (fun nd => some ((get_topology_key pt nd).getD "unknown")) cands).filter
        fun g => g.2.length ≥ num) with
    | some g =>
      rw [hmax] at hnd
      dsimp only at hnd
      have hg := maxByLen_mem _ g hmax
      have hg' := (List.mem_filter.mp hg).1
      have hmem : nd ∈ g.2 := List.take_subset _ _ hnd
      exact (groupByOpt_entry_pred _ cands g hg' nd hmem).2
    | none =>
      rw [hmax] at hnd
      dsimp only at hnd
      have hflat := List.take_subset _ _ hnd
      obtain ⟨l2, hl2, hnd2⟩ := List.mem_flatten.mp hflat
      obtain ⟨g, hgsorted, hgl2⟩ := List.mem_map.mp hl2
      have hg := mem_sortGroupsDesc _ g hgsorted
      exact (groupByOpt_entry_pred _ cands g hg nd (hgl2 ▸ hnd2)).2
  · rw [if_neg hp] at hnd
    exact List.take_subset _ _ hnd

/-- Every node of a successful `finishSelection` comes from the candidate
list, and its `gpus` field is that candidate's `gpu_count.unwrap_or(0)`. -/
theorem finishSelection_ok_nodes (pt : PlatformType) (params : NodeSelectionParams)
    (num : Nat) (cands : List NodeInfoS) (sel : NodeSelectionS)
    (h : finishSelection pt params num cands = some (.ok sel)) :
    ∀ snd ∈ sel.nodes, ∃ nd ∈ cands, snd.gpus = nd.gpu_count.getD 0 := by
  unfold finishSelection at h
  by_cases hempty : cands.isEmpty
  · rw [if_pos hempty] at h
    simp at h
  · rw [if_neg hempty] at h
    dsimp only at h
    by_cases hlen : (selectedRefs pt params num cands).length < num
    · rw [if_pos hlen] at h
      simp at h
    · rw [if_neg hlen] at h
      cases hsr : selectedRefs pt params num cands with
      | nil => rw [hsr] at h; simp at h
      | cons first rest =>
        rw [hsr] at h
        dsimp only at h
        injection h with h
        injection h with h
        subst h
        intro snd hsnd
        have hmap : snd ∈ (enumFromM 0 (first :: rest)).map
            (fun p => mkSelectedNode pt p.1 p.2) := by
          simpa [buildSelection] using hsnd
        obtain ⟨p, hp, hmk⟩ := List.mem_map.mp hmap
        have hpm : p.2 ∈ first :: rest := enumFromM_mem _ 0 p hp
        rw [← hsr] at hpm
        refine ⟨p.2, selectedRefs_subset pt params num cands p.2 hpm, ?_⟩
        rw [← hmk]
        rfl

/-- C10: when the parameters resolve to a nonzero node count `n` with
`gpus_per_node = Some g` (not optimize mode), every node of a successful
selection reports exactly `g` GPUs — a node whose `gpu_count` differs from
`g` (in particular one with more GPUs) is excluded rather than partially
used. -/
theorem fixed_mode_exact_gpus (report : ClusterReportS) (params : NodeSelectionParams)
    (n g : Nat) (sel : NodeSelectionS)
    (hres : params.resolve = some (.ok (n, some g)))
    (hn : n ≠ 0)
    (hsel : selectNodesFromReport report params = some (.ok sel)) :
    ∀ snd ∈ sel.nodes, snd.gpus = g := by
  unfold selectNodesFromReport at hsel
  rw [hres] at hsel
  dsimp only at hsel
  by_cases hempty : (rdmaCandidates report).isEmpty
  · rw [if_pos hempty] at hsel
    simp at hsel
  · rw [if_neg hempty] at hsel
    rw [if_neg hn] at hsel
    intro snd hsnd
    obtain ⟨nd, hnd, hgpus⟩ := finishSelection_ok_nodes _ _ _ _ _ hsel snd hsnd
    have hf := (List.mem_filter.mp hnd).2
    rw [hgpus]
    simpa using hf

/-- The selection value returned for `reportEight` with one node and
`gpus_per_node = 8`. -/
def selEight : NodeSelectionS :=
  ⟨[⟨"a", "rdma/ib: 1", 8, none, 0, []⟩], ⟨1, 8, 8, 8⟩,
   ⟨false, [("unknown", 1)], "All 1 nodes selected (topology unknown)"⟩,
   "CoreWeave", "rdma/ib: 1"⟩

/-- C10 witness: the exact-GPU theorem at a concrete report and selection. -/
theorem fixed_mode_exact_gpus_witness :
    selectNodesFromReport reportEight (mkParams (some 1) none (some 8)) =
      some (.ok selEight) ∧
    selEight.nodes.all (fun snd => snd.gpus == 8) = true := by
  refine ⟨rfl, ?_⟩
  refine List.all_eq_true.mpr fun snd hsnd => ?_
  rw [fixed_mode_exact_gpus reportEight (mkParams (some 1) none (some 8)) 1 8 selEight
    rfl (by decide) rfl snd hsnd]
  rfl

end Hermes
